import Mathlib

/-!
Verification development for the `github-issue-manager` repository.

This file shallowly embeds the reconciliation core of the tool:
the identity / content-hash marker codec (`src/utils/uuid.ts`), the
SHA-256 content hash (`src/utils/hash.ts`), the validation gate
(`src/commands/init.ts`, `validateIssues`), the transport retry loop
(`src/commands/import.ts`, `execGh` / `isRateLimitMessage`), and the
reconciliation engine (`src/commands/import.ts`, `importIssues` and its
helpers).  Remote GitHub state is modelled as an explicit state record
threaded through the operations, recording the tracker's issues,
milestones and the sequence of CLI calls issued.

JavaScript regular-expression matching (leftmost match, greedy
quantifiers with backtracking) is modelled concretely for the three
marker patterns used by the codec.
-/

set_option maxRecDepth 20000

namespace GIM

/-- Character lists; the codec is defined over `String.data`. -/
abbrev Chars := List Char

/-- JavaScript `\s` (whitespace class), by code point. -/
def isWS (c : Char) : Bool :=
  let n := c.toNat
  n == 32 || n == 9 || n == 10 || n == 11 || n == 12 || n == 13 || n == 160 ||
  n == 5760 || (8192 ≤ n && n ≤ 8202) || n == 8232 || n == 8233 ||
  n == 8239 || n == 8287 || n == 12288 || n == 65279

/-- The character class `[a-f0-9\-]` under the `i` flag: hex digits of
either case, or a dash.  Used by the identity-marker pattern. -/
def isIdChar (c : Char) : Bool :=
  let n := c.toNat
  (97 ≤ n && n ≤ 102) || (65 ≤ n && n ≤ 70) || (48 ≤ n && n ≤ 57) || n == 45

/-- The character class `[a-f0-9]` under the `i` flag: hex digits of
either case.  Used by the hash-marker pattern. -/
def isHexChar (c : Char) : Bool :=
  let n := c.toNat
  (97 ≤ n && n ≤ 102) || (65 ≤ n && n ≤ 70) || (48 ≤ n && n ≤ 57)

/-- ASCII lower-casing on code points (the effect of the regex `i` flag
on the literal parts of the marker patterns). -/
def lowerN (n : Nat) : Nat := if 65 ≤ n && n ≤ 90 then n + 32 else n

/-- Case-insensitive character comparison. -/
def charEqCI (a b : Char) : Bool := lowerN a.toNat == lowerN b.toNat

/-- Match a literal pattern case-insensitively at the head of `s`,
returning the remainder on success. -/
def stripPrefixCI : Chars → Chars → Option Chars
  | [], s => some s
  | _ :: _, [] => none
  | p :: ps, c :: cs => if charEqCI p c then stripPrefixCI ps cs else none

/-- Match `\s*-->` at the head of `s` (greedy `\s*` followed by the
closing literal), returning the remainder after `-->`. -/
def matchCloseWS (s : Chars) : Option Chars :=
  match s.dropWhile isWS with
  | '-' :: '-' :: '>' :: rest => some rest
  | _ => none

/-- Greedy backtracking for `cls+\s*-->`: `run` is the maximal run of
class characters; try giving the class `k` characters, largest first.
Returns the captured group and the remainder after `-->`. -/
def greedySplit (run rest : Chars) : Nat → Option (Chars × Chars)
  | 0 => none
  | k + 1 =>
    match matchCloseWS (run.drop (k + 1) ++ rest) with
    | some after => some (run.take (k + 1), after)
    | none => greedySplit run rest k

/-- Match `label\s*(cls+)\s*-->` at the head of `s` (case-insensitive),
returning the capture and the remainder after `-->`. -/
def matchMarkerAt (label : Chars) (cls : Char → Bool) (s : Chars) : Option (Chars × Chars) :=
  match stripPrefixCI label s with
  | none => none
  | some r0 =>
    let r1 := r0.dropWhile isWS
    let run := r1.takeWhile cls
    greedySplit run (r1.dropWhile cls) run.length

/-- Leftmost match of a marker pattern: scan positions left to right;
on success return the text before the match, the capture, and the text
after the closing `-->`. -/
def scanMarker (label : Chars) (cls : Char → Bool) : Chars → Option (Chars × Chars × Chars)
  | [] => none
  | c :: cs =>
    match matchMarkerAt label cls (c :: cs) with
    | some (cap, after) => some ([], cap, after)
    | none =>
      match scanMarker label cls cs with
      | some (pre, cap, after) => some (c :: pre, cap, after)
      | none => none

/-- The literal part of `/<!-- GFS-ID:\s*([a-f0-9\-]+)\s*-->/i`. -/
def gfsIdLabel : Chars := "<!-- GFS-ID:".data

/-- The literal part of `/<!-- GFS-HASH:\s*([a-f0-9]+)\s*-->/i`. -/
def gfsHashLabel : Chars := "<!-- GFS-HASH:".data

/-- `extractGfsId` from `src/utils/uuid.ts`: first match of
`/<!-- GFS-ID:\s*([a-f0-9\-]+)\s*-->/i`, returning the capture. -/
def extractGfsId (body : String) : Option String :=
  match scanMarker gfsIdLabel isIdChar body.data with
  | some (_, cap, _) => some (String.mk cap)
  | none => none

/-- Remove the first match of the marker pattern followed by `\n*`
(the `.replace(..., '')` step of the insert functions). -/
def removeFirstMarker (label : Chars) (cls : Char → Bool) (body : Chars) : Chars :=
  match scanMarker label cls body with
  | some (pre, _, after) => pre ++ after.dropWhile (fun c => c.toNat == 10)
  | none => body

/-- `insertGfsId` from `src/utils/uuid.ts`: remove the first existing
identity marker (and trailing newlines), then prepend a fresh one. -/
def insertGfsId (body gfsId : String) : String :=
  let cleaned := removeFirstMarker gfsIdLabel isIdChar body.data
  String.mk ("<!-- GFS-ID: ".data ++ gfsId.data ++ " -->\n".data ++ cleaned)

/-- `extractContentHash` from `src/utils/uuid.ts`: first match of
`/<!-- GFS-HASH:\s*([a-f0-9]+)\s*-->/i`, returning the capture. -/
def extractContentHash (body : String) : Option String :=
  match scanMarker gfsHashLabel isHexChar body.data with
  | some (_, cap, _) => some (String.mk cap)
  | none => none

/-- Does `-->` occur at offset `k` of `line`? -/
def arrowAt (line : Chars) (k : Nat) : Bool :=
  match line.drop k with
  | '-' :: '-' :: '>' :: _ => true
  | _ => false

/-- Largest `k` at most the given bound with `-->` at offset `k`
(the greedy `.*` of `/<!-- GFS-ID:.*-->/` backtracks from the right). -/
def lastArrow (line : Chars) : Nat → Option Nat
  | 0 => if arrowAt line 0 then some 0 else none
  | k + 1 => if arrowAt line (k + 1) then some (k + 1) else lastArrow line k

/-- Match the case-sensitive pattern `/<!-- GFS-ID:.*-->/` at the head
of `s`; `.*` does not cross a newline and is greedy.  Returns the
matched text and the remainder. -/
def matchIdCommentAt (s : Chars) : Option (Chars × Chars) :=
  if gfsIdLabel.isPrefixOf s then
    let r := s.drop gfsIdLabel.length
    let line := r.takeWhile (fun c => !(c.toNat == 10))
    match lastArrow line line.length with
    | some k => some (gfsIdLabel ++ line.take (k + 3), r.drop (k + 3))
    | none => none
  else none

/-- Leftmost match of `/<!-- GFS-ID:.*-->/`. -/
def scanIdComment : Chars → Option (Chars × Chars × Chars)
  | [] => none
  | c :: cs =>
    match matchIdCommentAt (c :: cs) with
    | some (m, after) => some ([], m, after)
    | none =>
      match scanIdComment cs with
      | some (pre, m, after) => some (c :: pre, m, after)
      | none => none

/-- `insertContentHash` from `src/utils/uuid.ts`: remove the first
existing hash marker (and trailing newlines); then place the new hash
marker directly after the first `<!-- GFS-ID: ... -->` comment when one
exists, else prepend it.  The source performs the placement with
`String.replace` on the matched text; replacing the first occurrence of
the leftmost regex match equals splicing at the match position, which
is how it is rendered here. -/
def insertContentHash (body hash : String) : String :=
  let cleaned := removeFirstMarker gfsHashLabel isHexChar body.data
  match scanIdComment cleaned with
  | some (pre, m, after) =>
      String.mk (pre ++ m ++ "\n<!-- GFS-HASH: ".data ++ hash.data ++ " -->".data ++ after)
  | none =>
      String.mk ("<!-- GFS-HASH: ".data ++ hash.data ++ " -->\n".data ++ cleaned)

/-- Split a character list on dashes (each dash separates two groups). -/
def splitOnDash : Chars → List Chars
  | [] => [[]]
  | c :: cs =>
    let r := splitOnDash cs
    if c.toNat == 45 then [] :: r
    else
      match r with
      | g :: gs => (c :: g) :: gs
      | [] => [[c]]

/-- `isValidUUID` from `src/utils/uuid.ts`: canonical UUID v4 textual
form, case-insensitive (8-4-4-4-12 hex groups, version nibble `4`,
variant nibble in `\x7b8,9,a,b\x7d`). -/
def isValidUUID (s : String) : Bool :=
  match splitOnDash s.data with
  | [g1, g2, g3, g4, g5] =>
    g1.length == 8 && g2.length == 4 && g3.length == 4 && g4.length == 4 &&
    g5.length == 12 &&
    (g1 ++ g2 ++ g3 ++ g4 ++ g5).all isHexChar &&
    (match g3 with | c :: _ => c.toNat == 52 | [] => false) &&
    (match g4 with
     | c :: _ => c.toNat == 56 || c.toNat == 57 || lowerN c.toNat == 97 ||
                 lowerN c.toNat == 98
     | [] => false)
  | _ => false

/-- Number of identity markers in a body: repeatedly take the leftmost
match and continue after it (the global-match count of the identity
pattern).  Fuelled by the body length, which bounds the match count. -/
def countMarkersGo (label : Chars) (cls : Char → Bool) : Nat → Chars → Nat
  | 0, _ => 0
  | fuel + 1, s =>
    match scanMarker label cls s with
    | some (_, _, after) => 1 + countMarkersGo label cls fuel after
    | none => 0

/-- Count of identity markers in a body. -/
def countGfsMarkers (body : String) : Nat :=
  countMarkersGo gfsIdLabel isIdChar body.data.length body.data

example : extractGfsId (insertGfsId "" "abc") = some "abc" := by decide
example : extractGfsId (insertGfsId "hello world" "12ab-cd") = some "12ab-cd" := by decide
example : extractGfsId (insertGfsId "" "zz") = none := by decide
example : extractContentHash (insertContentHash (insertGfsId "body text" "ab12") "deadbeef") =
    some "deadbeef" := by decide
example : insertContentHash (insertGfsId "x" "ab") "0f" =
    "<!-- GFS-ID: ab -->\n<!-- GFS-HASH: 0f -->\nx" := by decide
example : countGfsMarkers "<!-- GFS-ID: aa -->\nx\n<!-- GFS-ID: bb -->\n" = 2 := by decide
example : isValidUUID "123e4567-e89b-42d3-a456-426614174000" = true := by decide
example : isValidUUID "123e4567-e89b-12d3-a456-426614174000" = false := by decide
example : isValidUUID "not-a-uuid" = false := by decide

/-! ## SHA-256 (`createHash('sha256')` over the UTF-8 bytes) -/

/-- Truncation to a 32-bit word. -/
def w32 (n : Nat) : Nat := n % 4294967296

/-- Right rotation of a 32-bit word. -/
def rotr32 (k x : Nat) : Nat := x / 2 ^ k + x % 2 ^ k * 2 ^ (32 - k)

/-- Bitwise complement of a 32-bit word. -/
def not32 (x : Nat) : Nat := 4294967295 - x

/-- SHA-256 `Ch` function. -/
def shCh (e f g : Nat) : Nat := (e &&& f) ^^^ (not32 e &&& g)

/-- SHA-256 `Maj` function. -/
def shMaj (a b c : Nat) : Nat := (a &&& b) ^^^ (a &&& c) ^^^ (b &&& c)

/-- SHA-256 big sigma 0. -/
def bsig0 (x : Nat) : Nat := rotr32 2 x ^^^ rotr32 13 x ^^^ rotr32 22 x

/-- SHA-256 big sigma 1. -/
def bsig1 (x : Nat) : Nat := rotr32 6 x ^^^ rotr32 11 x ^^^ rotr32 25 x

/-- SHA-256 small sigma 0. -/
def ssig0 (x : Nat) : Nat := rotr32 7 x ^^^ rotr32 18 x ^^^ x / 2 ^ 3

/-- SHA-256 small sigma 1. -/
def ssig1 (x : Nat) : Nat := rotr32 17 x ^^^ rotr32 19 x ^^^ x / 2 ^ 10

/-- The 64 SHA-256 round constants. -/
def K256 : List Nat :=
  [1116352408, 1899447441, 3049323471, 3921009573, 961987163, 1508970993,
   2453635748, 2870763221, 3624381080, 310598401, 607225278, 1426881987,
   1925078388, 2162078206, 2614888103, 3248222580, 3835390401, 4022224774,
   264347078, 604807628, 770255983, 1249150122, 1555081692, 1996064986,
   2554220882, 2821834349, 2952996808, 3210313671, 3336571891, 3584528711,
   113926993, 338241895, 666307205, 773529912, 1294757372, 1396182291,
   1695183700, 1986661051, 2177026350, 2456956037, 2730485921, 2820302411,
   3259730800, 3345764771, 3516065817, 3600352804, 4094571909, 275423344,
   430227734, 506948616, 659060556, 883997877, 958139571, 1322822218,
   1537002063, 1747873779, 1955562222, 2024104815, 2227730452, 2361852424,
   2428436474, 2756734187, 3204031479, 3329325298]

/-- Intermediate hash value (eight 32-bit words). -/
structure Sha256State where
  a : Nat
  b : Nat
  c : Nat
  d : Nat
  e : Nat
  f : Nat
  g : Nat
  h : Nat
deriving Repr, DecidableEq

/-- Initial SHA-256 hash value. -/
def sha256Init : Sha256State :=
  ⟨1779033703, 3144134277, 1013904242, 2773480762,
   1359893119, 2600822924, 528734635, 1541459225⟩

/-- One SHA-256 compression round with round constant `k` and message
schedule word `w`. -/
def sha256Round (st : Sha256State) (kw : Nat × Nat) : Sha256State :=
  let t1 := w32 (st.h + bsig1 st.e + shCh st.e st.f st.g + kw.1 + kw.2)
  let t2 := w32 (bsig0 st.a + shMaj st.a st.b st.c)
  ⟨w32 (t1 + t2), st.a, st.b, st.c, w32 (st.d + t1), st.e, st.f, st.g⟩

/-- Message-schedule extension: `acc` holds the schedule so far in
reverse order; perform `n` extension steps. -/
def extendSchedule : List Nat → Nat → List Nat
  | acc, 0 => acc
  | acc, n + 1 =>
    let wt := w32 (acc.getD 15 0 + ssig0 (acc.getD 14 0) + acc.getD 6 0 +
                   ssig1 (acc.getD 1 0))
    extendSchedule (wt :: acc) n

/-- Convert bytes to big-endian 32-bit words (fuelled). -/
def bytesToWords : Nat → List Nat → List Nat
  | fuel + 1, b0 :: b1 :: b2 :: b3 :: rest =>
      (((b0 * 256 + b1) * 256 + b2) * 256 + b3) :: bytesToWords fuel rest
  | _, _ => []

/-- Compress one 64-byte block into the running hash value. -/
def sha256Block (H : Sha256State) (block : List Nat) : Sha256State :=
  let ws0 := bytesToWords block.length block
  let ws := (extendSchedule ws0.reverse 48).reverse
  let t := (K256.zip ws).foldl sha256Round H
  ⟨w32 (H.a + t.a), w32 (H.b + t.b), w32 (H.c + t.c), w32 (H.d + t.d),
   w32 (H.e + t.e), w32 (H.f + t.f), w32 (H.g + t.g), w32 (H.h + t.h)⟩

/-- SHA-256 padding: append `0x80`, zeros to 56 mod 64, then the bit
length as 8 big-endian bytes. -/
def padMessage (msg : List Nat) : List Nat :=
  let L := msg.length
  msg ++ 128 :: List.replicate ((119 - L % 64) % 64) 0 ++
    [8 * L / 2 ^ 56 % 256, 8 * L / 2 ^ 48 % 256, 8 * L / 2 ^ 40 % 256,
     8 * L / 2 ^ 32 % 256, 8 * L / 2 ^ 24 % 256, 8 * L / 2 ^ 16 % 256,
     8 * L / 2 ^ 8 % 256, 8 * L % 256]

/-- Split into 64-byte chunks (fuelled by the list length). -/
def chunks64 : Nat → List Nat → List (List Nat)
  | 0, _ => []
  | _, [] => []
  | fuel + 1, l => l.take 64 :: chunks64 fuel (l.drop 64)

/-- A 32-bit word as 4 big-endian bytes. -/
def wordBytes (w : Nat) : List Nat :=
  [w / 16777216 % 256, w / 65536 % 256, w / 256 % 256, w % 256]

/-- SHA-256 digest of a byte list, as 32 bytes. -/
def sha256 (msg : List Nat) : List Nat :=
  let padded := padMessage msg
  let fin := (chunks64 padded.length padded).foldl sha256Block sha256Init
  wordBytes fin.a ++ wordBytes fin.b ++ wordBytes fin.c ++ wordBytes fin.d ++
  wordBytes fin.e ++ wordBytes fin.f ++ wordBytes fin.g ++ wordBytes fin.h

/-- Lowercase hex digit for a value below 16. -/
def hexDigitChar (n : Nat) : Char := if n < 10 then Char.ofNat (48 + n) else Char.ofNat (87 + n)

/-- A byte as two lowercase hex characters. -/
def byteToHexChars (b : Nat) : Chars := [hexDigitChar (b / 16 % 16), hexDigitChar (b % 16)]

/-- Byte list rendered as a lowercase hex string (`digest('hex')`). -/
def bytesToHex (bs : List Nat) : String := String.mk ((bs.map byteToHexChars).flatten)

/-- UTF-8 encoding of one unicode scalar value. -/
def utf8EncodeChar (c : Char) : List Nat :=
  let n := c.toNat
  if n < 128 then [n]
  else if n < 2048 then [192 + n / 64, 128 + n % 64]
  else if n < 65536 then [224 + n / 4096, 128 + n / 64 % 64, 128 + n % 64]
  else [240 + n / 262144, 128 + n / 4096 % 64, 128 + n / 64 % 64, 128 + n % 64]

/-- UTF-8 bytes of a string (the implicit encoding of `hash.update`). -/
def utf8Bytes (s : String) : List Nat := (s.data.map utf8EncodeChar).flatten

/-- SHA-256 of a string's UTF-8 bytes, as lowercase hex. -/
def sha256Hex (s : String) : String := bytesToHex (sha256 (utf8Bytes s))

/-! ## The Issue record and the content hash (`src/utils/hash.ts`) -/

/-- The latest `Issue` schema from `src/types.ts`: `GFS_ID`, `Title`,
`Milestone`, `Description` are required strings; `Scope`, `Size` and
`Priority` are optional (a JS `undefined` field is `none`).  The legacy
`Acceptance Criteria` column, still read dynamically by the validation
gate, is carried as the optional `Acceptance` field. -/
structure Issue where
  GFS_ID : String
  Title : String
  Milestone : String
  Scope : Option String
  Size : Option String
  Priority : Option String
  Description : String
  Acceptance : Option String
deriving Repr, DecidableEq

/-- JSON string escaping as performed by `JSON.stringify`. -/
def jsonEscapeChar (c : Char) : Chars :=
  let n := c.toNat
  if n == 34 then ['\\', '"']
  else if n == 92 then ['\\', '\\']
  else if n == 8 then ['\\', 'b']
  else if n == 9 then ['\\', 't']
  else if n == 10 then ['\\', 'n']
  else if n == 12 then ['\\', 'f']
  else if n == 13 then ['\\', 'r']
  else if n < 32 then ['\\', 'u', '0', '0', hexDigitChar (n / 16), hexDigitChar (n % 16)]
  else [c]

/-- A string as a quoted JSON string literal. -/
def jsonQuote (s : String) : String :=
  String.mk ('"' :: (s.data.map jsonEscapeChar).flatten ++ ['"'])

/-- The canonical serialization hashed by `computeContentHash`:
`JSON.stringify` of the object literal with keys `description`,
`scope`, `size`, `priority`, `milestone` in that insertion order; a key
whose value is `undefined` is omitted entirely. -/
def serializeContent (i : Issue) : String :=
  "\x7b\"description\":" ++ jsonQuote i.Description ++
  (match i.Scope with | some s => ",\"scope\":" ++ jsonQuote s | none => "") ++
  (match i.Size with | some s => ",\"size\":" ++ jsonQuote s | none => "") ++
  (match i.Priority with | some s => ",\"priority\":" ++ jsonQuote s | none => "") ++
  ",\"milestone\":" ++ jsonQuote i.Milestone ++ "\x7d"

/-- `computeContentHash` from `src/utils/hash.ts`: SHA-256 (hex) of the
canonical serialization of the logical-content fields. -/
def computeContentHash (i : Issue) : String := sha256Hex (serializeContent i)

example : sha256Hex "" =
    "e3b0c44298fc1c149afbf4c8996fb924" ++ "27ae41e4649b934ca495991b7852b855" := by decide
example : sha256Hex "abc" =
    "ba7816bf8f01cfea414140de5dae2223" ++ "b00361a396177a9cb410ff61f20015ad" := by decide

/-! ## String utilities shared by the gate and the transport adapter -/

/-- Split a character list on a separator code point (JS `split`). -/
def splitOnCode (sep : Nat) : Chars → List Chars
  | [] => [[]]
  | c :: cs =>
    let r := splitOnCode sep cs
    if c.toNat == sep then [] :: r
    else
      match r with
      | g :: gs => (c :: g) :: gs
      | [] => [[c]]

/-- JS string truthiness: nonempty. -/
def strTruthy (s : String) : Bool := !(s == "")

/-- Option-of-string truthiness (an absent or empty field is falsy). -/
def optTruthy : Option String → Bool
  | some s => strTruthy s
  | none => false

/-- The test `!s || !s.trim()`: empty or whitespace-only. -/
def strBlank (s : String) : Bool := s.data.all isWS

/-- JS `String.prototype.trim`. -/
def jsTrim (s : String) : String :=
  String.mk (((s.data.dropWhile isWS).reverse.dropWhile isWS).reverse)

/-- Is `pat` a prefix of `s`? -/
def hasPrefixChars : Chars → Chars → Bool
  | [], _ => true
  | _ :: _, [] => false
  | p :: ps, c :: cs => p == c && hasPrefixChars ps cs

/-- Does `pat` occur in `s`?  (JS `String.prototype.includes`.) -/
def containsSub (pat : Chars) : Chars → Bool
  | [] => hasPrefixChars pat []
  | c :: cs => hasPrefixChars pat (c :: cs) || containsSub pat cs

/-- String-level substring test. -/
def containsSubstr (s pat : String) : Bool := containsSub pat.data s.data

/-- ASCII lower-casing of a string (JS `toLowerCase` on ASCII text). -/
def toLowerStr (s : String) : String :=
  String.mk (s.data.map (fun c => Char.ofNat (lowerN c.toNat)))

/-- JS `Array.prototype.join` with a separator. -/
def joinSep (sep : String) : List String → String
  | [] => ""
  | [x] => x
  | x :: xs => x ++ sep ++ joinSep sep xs

/-! ## Validation gate (`validateIssues` in `src/commands/init.ts`) -/

/-- The configuration fields consumed by the validation gate and the
reconciliation engine: the three optional vocabularies.  (The optional
secondary-board descriptor is not modelled; the reconciliation model
covers configurations without a configured board, for which the
board-sync helper returns immediately.) -/
structure RepoConfig where
  scopes : Option (List String)
  sizes : Option (List String)
  priorities : Option (List String)
deriving Repr, DecidableEq

/-- `ValidationResult` from `src/types.ts`. -/
structure ValidationResult where
  valid : Bool
  errors : List String
  warnings : List String
deriving Repr, DecidableEq

/-- Accumulator of the `issues.forEach` loop in `validateIssues`:
the error and warning lists, the set of seen identities, the issues
processed so far (the in-place-mutated array), and the stream of fresh
UUIDs standing in for `generateUUID()`. -/
structure ValState where
  errors : List String
  warnings : List String
  seen : List String
  fixedIssues : List Issue
  supply : List String
deriving Repr, DecidableEq

/-- Does a line match `/^\s*-\s*\[\s*[\sx]\s*\]/` (a markdown task
bullet)?  The greedy `\s*` before `[\sx]` backtracks by one character
when the class would otherwise find none. -/
def isTaskBullet (line : Chars) : Bool :=
  match line.dropWhile isWS with
  | '-' :: r2 =>
    match r2.dropWhile isWS with
    | '[' :: r3 =>
      let inCount := (r3.takeWhile isWS).length
      match r3.dropWhile isWS with
      | 'x' :: r4 =>
        (match r4.dropWhile isWS with
         | ']' :: _ => true
         | _ => false)
      | ']' :: _ => decide (0 < inCount)
      | _ => false
    | _ => false
  | _ => false

/-- One iteration of the `validateIssues` loop, at row index `idx`. -/
def validateStep (config : RepoConfig) (fix : Bool) (st : ValState)
    (ix : Nat × Issue) : ValState :=
  let row := ix.1 + 2
  let issue := ix.2
  let rowStr := "Row " ++ toString row
  let (issue1, st1) :=
    if strBlank issue.GFS_ID then
      if fix then
        ({ issue with GFS_ID := st.supply.headD "" },
         { st with supply := st.supply.tail,
                   warnings := st.warnings ++ [rowStr ++ ": Generated missing GFS_ID"] })
      else
        (issue, { st with errors := st.errors ++
                    [rowStr ++ ": GFS_ID is required and cannot be empty"] })
    else if !isValidUUID issue.GFS_ID then
      if fix then
        ({ issue with GFS_ID := st.supply.headD "" },
         { st with supply := st.supply.tail,
                   warnings := st.warnings ++ [rowStr ++ ": Invalid GFS_ID format, regenerated"] })
      else
        (issue, { st with errors := st.errors ++
                    [rowStr ++ ": GFS_ID must be a valid UUID v4"] })
    else (issue, st)
  let st2 :=
    if strTruthy issue1.GFS_ID && st1.seen.contains issue1.GFS_ID then
      { st1 with errors := st1.errors ++
          [rowStr ++ ": Duplicate GFS_ID \"" ++ issue1.GFS_ID ++
           "\" (already seen in earlier row)"] }
    else if strTruthy issue1.GFS_ID then
      { st1 with seen := st1.seen ++ [issue1.GFS_ID] }
    else st1
  let st3 :=
    if strBlank issue1.Title then
      { st2 with errors := st2.errors ++
          [rowStr ++ ": Title is required and cannot be empty"] }
    else st2
  let st4 :=
    if strTruthy issue1.Title &&
       (st3.fixedIssues.map Issue.Title).contains issue1.Title &&
       !(st3.errors.any (fun e => containsSubstr e "duplicate")) then
      { st3 with warnings := st3.warnings ++
          [rowStr ++ ": Duplicate title \"" ++ issue1.Title ++
           "\" (already seen in earlier row)"] }
    else st3
  let scopes := config.scopes.getD []
  let st5 :=
    if decide (0 < scopes.length) && optTruthy issue1.Scope &&
       !(scopes.contains (issue1.Scope.getD "")) then
      { st4 with errors := st4.errors ++
          [rowStr ++ ": Invalid Scope \"" ++ issue1.Scope.getD "" ++
           "\". Must be one of: " ++ joinSep ", " scopes] }
    else st4
  let sizes := config.sizes.getD []
  let st6 :=
    if decide (0 < sizes.length) && optTruthy issue1.Size &&
       !(sizes.contains (issue1.Size.getD "")) then
      { st5 with errors := st5.errors ++
          [rowStr ++ ": Invalid Size \"" ++ issue1.Size.getD "" ++
           "\". Must be one of: " ++ joinSep ", " sizes] }
    else st5
  let priorities := config.priorities.getD []
  let st7 :=
    if decide (0 < priorities.length) && optTruthy issue1.Priority &&
       !(priorities.contains (issue1.Priority.getD "")) then
      { st6 with errors := st6.errors ++
          [rowStr ++ ": Invalid Priority \"" ++ issue1.Priority.getD "" ++
           "\". Must be one of: " ++ joinSep ", " priorities] }
    else st6
  let st8 :=
    if optTruthy issue1.Acceptance && !(strBlank (issue1.Acceptance.getD "")) then
      let lines := splitOnCode 10 (issue1.Acceptance.getD "").data
      if !(lines.any isTaskBullet) then
        { st7 with warnings := st7.warnings ++
            [rowStr ++ ": Acceptance Criteria should use markdown task list format (- [ ] item)"] }
      else st7
    else st7
  let st9 :=
    if strBlank issue1.Milestone then
      { st8 with warnings := st8.warnings ++ [rowStr ++ ": Milestone is empty"] }
    else st8
  { st9 with fixedIssues := st9.fixedIssues ++ [issue1] }

/-- `validateIssues` from `src/commands/init.ts`.  Besides the
`ValidationResult` it returns the processed issue list (the visible
effect of the source's in-place autofix mutation); `supply` is the
stream of fresh UUIDs produced by `generateUUID()`. -/
def validateIssues (issues : List Issue) (config : RepoConfig) (fix : Bool)
    (supply : List String) : ValidationResult × List Issue :=
  let fin := issues.enum.foldl (validateStep config fix) ⟨[], [], [], [], supply⟩
  (⟨fin.errors.length == 0, fin.errors, fin.warnings⟩, fin.fixedIssues)

/-! ## Transport adapter retry (`execGh` in `src/commands/import.ts`) -/

/-- `isRateLimitMessage` from `src/commands/import.ts`. -/
def isRateLimitMessage (text : String) : Bool :=
  let t := toLowerStr text
  containsSubstr t "rate limit" || containsSubstr t "secondary rate limit" ||
  containsSubstr t "http 429" || containsSubstr t "abuse detection"

/-- Outcome of one `spawnSync('gh', ...)` attempt: exit status 0 with
the stdout text, or a failure with the error text (`result.error`
message or the nonzero-exit stderr/stdout). -/
inductive GhOutcome where
  | ok : String → GhOutcome
  | fail : String → GhOutcome
deriving Repr, DecidableEq

/-- Result of the retry loop: the surfaced value or thrown error text,
plus the sequence of backoff sleeps (in ms) performed. -/
structure GhResult where
  outcome : Except String String
  sleeps : List Nat
deriving Repr

/-- The `while (attempt < maxAttempts)` retry loop of `execGh`:
`results n` is the outcome of attempt number `n` (0-based).  A success
returns the trimmed stdout; a failure whose text matches the rate-limit
signature, with attempts remaining, sleeps `1000 * 2 ^ attempt` ms and
retries; any other failure is surfaced immediately. -/
def execGhGo (results : Nat → GhOutcome) (maxAttempts : Nat) :
    Nat → Nat → String → List Nat → GhResult
  | 0, _, lastErr, sleeps =>
      ⟨Except.error ("GitHub CLI exited with error: " ++ lastErr), sleeps⟩
  | fuel + 1, attempt, lastErr, sleeps =>
    if attempt < maxAttempts then
      match results attempt with
      | GhOutcome.ok out => ⟨Except.ok (jsTrim out), sleeps⟩
      | GhOutcome.fail e =>
        if isRateLimitMessage e && attempt + 1 < maxAttempts then
          execGhGo results maxAttempts fuel (attempt + 1) e (sleeps ++ [1000 * 2 ^ attempt])
        else ⟨Except.error ("GitHub CLI exited with error: " ++ e), sleeps⟩
    else ⟨Except.error ("GitHub CLI exited with error: " ++ lastErr), sleeps⟩

/-- `execGh` from `src/commands/import.ts` (`maxAttempts = 3`). -/
def execGh (results : Nat → GhOutcome) : GhResult :=
  execGhGo results 3 3 0 "" []

/-! ## Reconciliation engine (`importIssues` in `src/commands/import.ts`)

The remote tracker is modelled as an explicit state: its issues (the
fields selected by the bulk fetch), its milestone titles, the next
issue number it will assign, and the ordered log of CLI calls issued.
The model covers configurations without a configured secondary board,
for which `ensureIssueInProjectAndSetFields` returns immediately; the
board path and the project-list cache priming touch neither the issue
state nor the milestone list nor the import counters. -/

/-- `GithubIssue` from `src/types.ts` (fields used by the engine);
an absent milestone is the empty string. -/
structure GithubIssue where
  number : Nat
  title : String
  body : String
  milestone : String
  labels : List String
deriving Repr, DecidableEq

/-- One CLI invocation performed by the engine. -/
inductive GhCall where
  | listIssues : GhCall
  | listMilestones : GhCall
  | createMilestone : String → GhCall
  | createIssue : String → String → String → GhCall
  | editIssue : Nat → String → String → String → GhCall
  | addLabels : Nat → List String → GhCall
deriving Repr, DecidableEq

/-- The remote repository state threaded through a run. -/
structure RemoteState where
  issues : List GithubIssue
  milestones : List String
  nextNumber : Nat
  calls : List GhCall
deriving Repr, DecidableEq

/-- `ImportOptions` from `src/types.ts`. -/
structure ImportOptions where
  dryRun : Bool
  createOnly : Bool
  updateOnly : Bool
  autoCreateMilestones : Bool
  autoCreateLabels : Bool
deriving Repr, DecidableEq

/-- The `\x7bcreated, updated, skipped\x7d` summary. -/
structure ImportSummary where
  created : Nat
  updated : Nat
  skipped : Nat
deriving Repr, DecidableEq

/-- `formatIssueBody`: identity marker, hash marker, blank line,
description. -/
def formatIssueBody (issue : Issue) : String :=
  "<!-- GFS-ID: " ++ issue.GFS_ID ++ " -->\n<!-- GFS-HASH: " ++
  computeContentHash issue ++ " -->\n\n" ++ issue.Description

/-- `findIssueByGfsId`: first remote issue whose body carries the
given identity marker. -/
def findIssueByGfsId (gfsId : String) (existingIssues : List GithubIssue) :
    Option GithubIssue :=
  existingIssues.find? (fun issue => extractGfsId issue.body == some gfsId)

/-- `listMilestones`: fetch the remote milestone list (logged). -/
def listMilestones (st : RemoteState) : List String × RemoteState :=
  (st.milestones, { st with calls := st.calls ++ [GhCall.listMilestones] })

/-- `createMilestone`: POST a new milestone; the transport is modelled
as succeeding, returning the canonical (identical) title. -/
def createMilestone (st : RemoteState) (title : String) :
    Option String × RemoteState :=
  (some title,
   { st with milestones := st.milestones ++ [title],
             calls := st.calls ++ [GhCall.createMilestone title] })

/-- `prepareMilestoneArg`: empty titles resolve to nothing without any
fetch; otherwise list milestones, use an existing title verbatim, else
create it when auto-create is on and not a dry run, else resolve to
nothing (warning only). -/
def prepareMilestoneArg (st : RemoteState) (title : String)
    (autoCreate dryRun : Bool) : Option String × RemoteState :=
  if strBlank title then (none, st)
  else
    let (existing, st1) := listMilestones st
    if existing.contains title then (some title, st1)
    else if autoCreate && !dryRun then
      let (created, st2) := createMilestone st1 title
      match created with
      | some t => (some t, st2)
      | none => (none, st2)
    else (none, st1)

/-- `createGithubIssue`: on a dry run, no call and number 0; otherwise
`gh issue create` with the formatted body, passing `--milestone` only
when the issue's milestone is truthy and non-blank. -/
def createGithubIssue (st : RemoteState) (issue : Issue) (dryRun : Bool) :
    Nat × RemoteState :=
  if dryRun then (0, st)
  else
    let body := formatIssueBody issue
    let ms := if strTruthy issue.Milestone && !strBlank issue.Milestone then issue.Milestone else ""
    let n := st.nextNumber
    (n, { st with
            issues := st.issues ++ [⟨n, issue.Title, body, ms, []⟩],
            nextNumber := n + 1,
            calls := st.calls ++ [GhCall.createIssue issue.Title body ms] })

/-- `updateGithubIssue`: `gh issue edit` for the given number, setting
title and body; `--milestone` is passed only when truthy and
non-blank (otherwise the remote milestone stays as it was). -/
def updateGithubIssue (st : RemoteState) (issueNumber : Nat) (issue : Issue)
    (dryRun : Bool) : RemoteState :=
  if dryRun then st
  else
    let body := formatIssueBody issue
    let ms := if strTruthy issue.Milestone && !strBlank issue.Milestone then issue.Milestone else ""
    { st with
        issues := st.issues.map (fun e =>
          if e.number == issueNumber then
            { e with title := issue.Title, body := body,
                     milestone := if ms == "" then e.milestone else ms }
          else e),
        calls := st.calls ++ [GhCall.editIssue issueNumber issue.Title body ms] }

/-- `addLabelsToIssue`: a single `gh issue edit --add-label` call with
the comma-joined labels; no call on a dry run or an empty list.
GitHub adds the labels to the issue's existing set. -/
def addLabelsToIssue (st : RemoteState) (issueNumber : Nat)
    (labels : List String) (dryRun : Bool) : RemoteState :=
  if dryRun || labels.isEmpty then st
  else
    { st with
        issues := st.issues.map (fun e =>
          if e.number == issueNumber then
            { e with labels := e.labels ++ labels.filter (fun l => !(e.labels.contains l)) }
          else e),
        calls := st.calls ++ [GhCall.addLabels issueNumber labels] }

/-- The labels composed under `--auto-labels`:
`scope:` (default `other`), `size:` (default `M`), and `priority:`
only when the issue's priority is truthy. -/
def autoLabels (issue : Issue) : List String :=
  let scopeVal := if optTruthy issue.Scope then issue.Scope.getD "" else "other"
  let sizeVal := if optTruthy issue.Size then issue.Size.getD "" else "M"
  ["scope:" ++ scopeVal, "size:" ++ sizeVal] ++
  (if optTruthy issue.Priority then ["priority:" ++ issue.Priority.getD ""] else [])

/-- One iteration of the `issues.forEach` loop of `importIssues`,
against the snapshot `existing` fetched at the start of the run. -/
def importStep (opts : ImportOptions) (existing : List GithubIssue)
    (acc : RemoteState × ImportSummary) (issue : Issue) :
    RemoteState × ImportSummary :=
  let st := acc.1
  let sum := acc.2
  match findIssueByGfsId issue.GFS_ID existing with
  | some ex =>
    if opts.createOnly then (st, { sum with skipped := sum.skipped + 1 })
    else if extractContentHash ex.body == some (computeContentHash issue) then
      (st, { sum with skipped := sum.skipped + 1 })
    else if opts.dryRun then (st, { sum with updated := sum.updated + 1 })
    else
      let r := prepareMilestoneArg st issue.Milestone opts.autoCreateMilestones opts.dryRun
      let issue1 := { issue with Milestone := r.1.getD "" }
      let st2 := updateGithubIssue r.2 ex.number issue1 opts.dryRun
      let st3 :=
        if opts.autoCreateLabels then
          addLabelsToIssue st2 ex.number (autoLabels issue1) opts.dryRun
        else st2
      (st3, { sum with updated := sum.updated + 1 })
  | none =>
    if opts.updateOnly then (st, { sum with skipped := sum.skipped + 1 })
    else if opts.dryRun then (st, { sum with created := sum.created + 1 })
    else
      let r := prepareMilestoneArg st issue.Milestone opts.autoCreateMilestones opts.dryRun
      let issue1 := { issue with Milestone := r.1.getD "" }
      let c := createGithubIssue r.2 issue1 opts.dryRun
      let st3 :=
        if opts.autoCreateLabels then
          addLabelsToIssue c.2 c.1 (autoLabels issue1) opts.dryRun
        else c.2
      (st3, { sum with created := sum.created + 1 })

/-- `importIssues` from `src/commands/import.ts`: fetch all issues once
(the snapshot used by every classification), then fold the per-issue
loop; returns the summary and the final remote state. -/
def importIssues (issues : List Issue) (opts : ImportOptions)
    (st0 : RemoteState) : ImportSummary × RemoteState :=
  let st1 := { st0 with calls := st0.calls ++ [GhCall.listIssues] }
  let existing := st0.issues
  let fin := issues.foldl (importStep opts existing) (st1, ⟨0, 0, 0⟩)
  (fin.2, fin.1)

/-! ## Auxiliary predicates used by the statements -/

/-- A well-formed marker token: nonempty and consisting only of
characters of the identity-marker class (every canonical UUID is one). -/
def tokenOKb (s : String) : Bool := !s.data.isEmpty && s.data.all isIdChar

/-- A well-formed digest token: nonempty hex (every SHA-256 hex digest
is one). -/
def hexOKb (s : String) : Bool := !s.data.isEmpty && s.data.all isHexChar

/-- An issue's milestone is resolvable against a run: it is absent, or
it is non-blank and either auto-creation is on or it already exists in
the remote milestone list. -/
def msResolvable (opts : ImportOptions) (ms0 : List String) (i : Issue) : Bool :=
  i.Milestone == "" ||
  (!strBlank i.Milestone && (opts.autoCreateMilestones || ms0.contains i.Milestone))

/-- A well-formed remote state: issue numbers are distinct and below
the next number the tracker will assign. -/
def wellFormedRemote (st : RemoteState) : Prop :=
  (st.issues.map GithubIssue.number).Nodup ∧
  ∀ e ∈ st.issues, e.number < st.nextNumber

/-- The desired issue `i` is tracked and unchanged in the remote list
`l`: the lookup by identity succeeds and the stored content-hash marker
equals `computeContentHash i`. -/
def GoodIssue (i : Issue) (l : List GithubIssue) : Prop :=
  ∃ e, findIssueByGfsId i.GFS_ID l = some e ∧
    extractContentHash e.body = some (computeContentHash i)

/-- Is a CLI call a label-add call? -/
def isAddLabelsCall : GhCall → Bool
  | GhCall.addLabels _ _ => true
  | _ => false

/-- The label-add calls of a call log. -/
def labelCalls (cs : List GhCall) : List GhCall := cs.filter isAddLabelsCall

/-- Number of milestone-list fetches in a call log. -/
def msFetchCount (cs : List GhCall) : Nat :=
  (cs.filter (fun c => c == GhCall.listMilestones)).length

/-- Does this issue reach the milestone-resolution step of a run with
the given options and issue snapshot?  (It is classified for a
non-dry-run create or update and its milestone is non-blank; exactly
then does `prepareMilestoneArg` fetch the remote milestone list.) -/
def reachesResolution (opts : ImportOptions) (existing : List GithubIssue)
    (issue : Issue) : Bool :=
  !opts.dryRun &&
  (match findIssueByGfsId issue.GFS_ID existing with
   | some ex => !opts.createOnly &&
       !(extractContentHash ex.body == some (computeContentHash issue))
   | none => !opts.updateOnly) &&
  !strBlank issue.Milestone

/-- The labels composed by the engine for an issue whose scope and size
are set: the field values verbatim, with `priority:` only when set. -/
def expectedLabels (sc sz : String) (priority : Option String) : List String :=
  ["scope:" ++ sc, "size:" ++ sz] ++
  (match priority with
   | some p => if p == "" then [] else ["priority:" ++ p]
   | none => [])

/-! ## Concrete data used by witnesses and counterexamples -/

/-- A desired issue whose milestone does not exist remotely. -/
def demoIssueMs : Issue :=
  ⟨"aaaa1111-2222-4333-8444-555566667777", "T1", "M1", none, none, none, "d1", none⟩

/-- A desired issue whose milestone exists remotely. -/
def demoIssueV1 : Issue :=
  ⟨"bbbb1111-2222-4333-8444-555566667777", "T2", "v1", some "frontend", some "M",
   none, "d2", none⟩

/-- A second desired issue (distinct identity) with the same remote
milestone. -/
def demoIssueV1b : Issue :=
  ⟨"cccc1111-2222-4333-8444-555566667777", "T3", "v1", some "backend", some "L",
   some "P1", "d3", none⟩

/-- An empty remote repository. -/
def demoEmptyRemote : RemoteState := ⟨[], [], 1, []⟩

/-- An empty remote repository that has milestone `v1`. -/
def demoRemoteV1 : RemoteState := ⟨[], ["v1"], 1, []⟩

/-- Plain (non-dry, unsuppressed) import options. -/
def demoOpts : ImportOptions := ⟨false, false, false, false, false⟩

/-- A transport-outcome schedule that is rate-limited twice and then
succeeds. -/
def demoResultsRL : Nat → GhOutcome
  | 0 => GhOutcome.fail "API rate limit exceeded"
  | 1 => GhOutcome.fail "HTTP 429: Too Many Requests"
  | _ => GhOutcome.ok " ok-output "

/-- The fields of an issue other than its identity. -/
def nonIdFields (i : Issue) :
    String × String × Option String × Option String × Option String × String ×
    Option String :=
  (i.Title, i.Milestone, i.Scope, i.Size, i.Priority, i.Description, i.Acceptance)

/-- A dataset with three independent defects: a duplicate identity
(row 3), a missing title (row 4) and an out-of-vocabulary scope
(row 5). -/
def demoDefectDataset : List Issue :=
  [⟨"aaaa1111-2222-4333-8444-555566667777", "A", "v1", some "frontend", none, none, "da", none⟩,
   ⟨"aaaa1111-2222-4333-8444-555566667777", "B", "v1", some "frontend", none, none, "db", none⟩,
   ⟨"cccc1111-2222-4333-8444-555566667777", "", "v1", some "frontend", none, none, "dc", none⟩,
   ⟨"dddd1111-2222-4333-8444-555566667777", "D", "v1", some "bogus", none, none, "dd", none⟩]

/-- A configuration with a non-empty scope vocabulary. -/
def demoCfgScopes : RepoConfig := ⟨some ["frontend", "backend"], none, none⟩

/-- A fresh canonical UUID v4 (as `generateUUID` would mint). -/
def demoUUID : String := "123e4567-e89b-42d3-a456-426614174000"

/-- An issue with a malformed identity and an out-of-vocabulary scope. -/
def demoBadIdIssue : Issue := ⟨"not-a-uuid", "T", "", some "bogus", none, none, "d", none⟩

/-- A configuration whose only scope is `frontend`. -/
def demoCfgFrontend : RepoConfig := ⟨some ["frontend"], none, none⟩

/-! ## The reconciliation invariant behind re-import idempotence -/

/-- How a slot of the current remote issue list relates to the snapshot
entry it occupies: its number is the snapshot number, and its body is
either still the snapshot body or the freshly formatted body of an
already-processed desired issue whose snapshot lookup resolved to this
entry. -/
def SlotRel (E : List GithubIssue) (done : List Issue) (f e : GithubIssue) : Prop :=
  f.number = e.number ∧
  (f.body = e.body ∨ ∃ d ∈ done, findIssueByGfsId d.GFS_ID E = some e ∧
    f.body = formatIssueBody d)

/-- The loop invariant of one import run against snapshot `E` and
initial milestone list `ms0`, after the desired issues `done` have been
processed: the starting milestones persist, issue numbers stay distinct
and below the allocator, every processed issue is tracked and
up to date, and the issue list splits into the evolved snapshot slots
followed by the issues created (in this run) for unmatched desired
issues. -/
def ImportInv (E : List GithubIssue) (ms0 : List String) (done : List Issue)
    (st : RemoteState) : Prop :=
  (∀ m ∈ ms0, m ∈ st.milestones) ∧
  (st.issues.map GithubIssue.number).Nodup ∧
  (∀ e ∈ st.issues, e.number < st.nextNumber) ∧
  (∀ d ∈ done, GoodIssue d st.issues) ∧
  ∃ front back, st.issues = front ++ back ∧
    List.Forall₂ (SlotRel E done) front E ∧
    ∀ e ∈ back, ∃ d ∈ done, findIssueByGfsId d.GFS_ID E = none ∧
      e.body = formatIssueBody d

/-! # Theorems -/

/-- C2: `computeContentHash` is a pure deterministic function of
exactly the tuple (description, scope, size, priority, milestone): two
issues agreeing on these five fields hash identically regardless of any
other field, and in particular changing only the Title (or the GFS_ID
identity) leaves the digest unchanged. -/
theorem computeContentHash_content_only (i j : Issue)
    (hd : i.Description = j.Description) (hs : i.Scope = j.Scope)
    (hz : i.Size = j.Size) (hp : i.Priority = j.Priority)
    (hm : i.Milestone = j.Milestone) :
    computeContentHash i = computeContentHash j ∧
    ∀ t g : String,
      computeContentHash { i with Title := t, GFS_ID := g } = computeContentHash i := by
  constructor
  · simp only [computeContentHash, serializeContent, hd, hs, hz, hp, hm]
  · intro t g
    rfl

/-- Witness for C2 at concrete issues differing only in title and
identity. -/
theorem computeContentHash_content_only_witness :
    computeContentHash ⟨"id1", "Title A", "v1", some "frontend", none, none, "d", none⟩ =
      computeContentHash ⟨"id2", "Title B", "v1", some "frontend", none, none, "d", none⟩ ∧
    ∀ t g : String,
      computeContentHash { (⟨"id1", "Title A", "v1", some "frontend", none, none,
        "d", none⟩ : Issue) with Title := t, GFS_ID := g } =
      computeContentHash ⟨"id1", "Title A", "v1", some "frontend", none, none, "d", none⟩ :=
  computeContentHash_content_only _ _ rfl rfl rfl rfl rfl

/-- Each iteration of the import loop adds exactly one to exactly one
of the three counters. -/
lemma importStep_counts (opts : ImportOptions) (existing : List GithubIssue)
    (acc : RemoteState × ImportSummary) (issue : Issue) :
    (importStep opts existing acc issue).2.created +
      (importStep opts existing acc issue).2.updated +
      (importStep opts existing acc issue).2.skipped =
    acc.2.created + acc.2.updated + acc.2.skipped + 1 := by
  unfold importStep
  cases hfind : findIssueByGfsId issue.GFS_ID existing <;>
    simp only [hfind] <;> split_ifs <;> simp +arith

/-- Folding the import loop adds the list length to the counter sum. -/
lemma importFold_counts (opts : ImportOptions) (existing : List GithubIssue) :
    ∀ (issues : List Issue) (acc : RemoteState × ImportSummary),
    ((issues.foldl (importStep opts existing) acc).2.created +
      (issues.foldl (importStep opts existing) acc).2.updated +
      (issues.foldl (importStep opts existing) acc).2.skipped) =
    acc.2.created + acc.2.updated + acc.2.skipped + issues.length := by
  intro issues
  induction issues with
  | nil => intro acc; simp
  | cons i rest ih =>
    intro acc
    simp only [List.foldl_cons, List.length_cons]
    rw [ih]
    have h := importStep_counts opts existing acc i
    omega

/-- C10: count conservation — for every input list and every
combination of options, `importIssues` returns a summary with
`created + updated + skipped` equal to the length of the input list. -/
theorem importIssues_count_conservation (issues : List Issue)
    (opts : ImportOptions) (st0 : RemoteState) :
    (importIssues issues opts st0).1.created +
      (importIssues issues opts st0).1.updated +
      (importIssues issues opts st0).1.skipped = issues.length := by
  unfold importIssues
  have h := importFold_counts opts st0.issues issues
    ({ st0 with calls := st0.calls ++ [GhCall.listIssues] }, ⟨0, 0, 0⟩)
  simpa using h

/-- C5: transport retry — a `gh` invocation that fails twice with
rate-limit-flavoured messages and succeeds on the third attempt returns
the successful result without surfacing an error, sleeping 1s then 2s;
a failure whose text does not match the rate-limit signature is
surfaced immediately, with no retry and no sleep. -/
theorem execGh_rate_limit_retry
    (results : Nat → GhOutcome) (e1 e2 out : String)
    (h1 : isRateLimitMessage e1 = true) (h2 : isRateLimitMessage e2 = true)
    (r0 : results 0 = GhOutcome.fail e1) (r1 : results 1 = GhOutcome.fail e2)
    (r2 : results 2 = GhOutcome.ok out) :
    execGh results = ⟨Except.ok (jsTrim out), [1000, 2000]⟩ ∧
    ∀ (res : Nat → GhOutcome) (e : String), isRateLimitMessage e = false →
      res 0 = GhOutcome.fail e →
      execGh res = ⟨Except.error ("GitHub CLI exited with error: " ++ e), []⟩ := by
  constructor
  · simp [execGh, execGhGo, r0, r1, r2, h1, h2]
  · intro res e he h0
    simp [execGh, execGhGo, h0, he]

/-- Witness for C5: a concrete schedule failing with rate-limit
messages twice then succeeding. -/
theorem execGh_rate_limit_retry_witness :
    execGh demoResultsRL = ⟨Except.ok (jsTrim " ok-output "), [1000, 2000]⟩ ∧
    ∀ (res : Nat → GhOutcome) (e : String), isRateLimitMessage e = false →
      res 0 = GhOutcome.fail e →
      execGh res = ⟨Except.error ("GitHub CLI exited with error: " ++ e), []⟩ :=
  execGh_rate_limit_retry demoResultsRL _ _ _ (by decide) (by decide) rfl rfl rfl

/-- C6: validation completeness — `valid` is true exactly when the
error list is empty, and the dataset with a duplicate identity, a
missing title and an out-of-vocabulary scope yields (at least) three
distinct error entries from a single call: the gate accumulates all
findings instead of short-circuiting. -/
theorem validateIssues_accumulates :
    (∀ (issues : List Issue) (config : RepoConfig) (fix : Bool) (supply : List String),
      (validateIssues issues config fix supply).1.valid = true ↔
        (validateIssues issues config fix supply).1.errors = []) ∧
    ((validateIssues demoDefectDataset demoCfgScopes false []).1.errors =
      ["Row 3: Duplicate GFS_ID \"aaaa1111-2222-4333-8444-555566667777\" (already seen in earlier row)",
       "Row 4: Title is required and cannot be empty",
       "Row 5: Invalid Scope \"bogus\". Must be one of: frontend, backend"] ∧
      3 ≤ (validateIssues demoDefectDataset demoCfgScopes false []).1.errors.length ∧
      (validateIssues demoDefectDataset demoCfgScopes false []).1.errors.Nodup) := by
  constructor
  · intro issues config fix supply
    unfold validateIssues
    simp [List.length_eq_zero]
  · exact ⟨by decide, by decide, by decide⟩

/-- The per-issue step of the gate appends exactly one processed issue,
and the processed issue differs from the input at most in `GFS_ID`. -/
lemma validateStep_frame (config : RepoConfig) (fix : Bool) (st : ValState)
    (ix : Nat × Issue) :
    ((validateStep config fix st ix).fixedIssues).map nonIdFields =
      (st.fixedIssues).map nonIdFields ++ [nonIdFields ix.2] := by
  unfold validateStep
  by_cases hb : strBlank ix.2.GFS_ID <;> by_cases hf : fix <;>
    by_cases hv : isValidUUID ix.2.GFS_ID <;>
      simp [hb, hf, hv, apply_ite ValState.fixedIssues, nonIdFields]

/-- Folding the gate maps `nonIdFields` over the processed issues. -/
lemma validateFold_frame (config : RepoConfig) (fix : Bool) :
    ∀ (l : List (Nat × Issue)) (st : ValState),
    ((l.foldl (validateStep config fix) st).fixedIssues).map nonIdFields =
      (st.fixedIssues).map nonIdFields ++ l.map (fun ix => nonIdFields ix.2) := by
  intro l
  induction l with
  | nil => intro st; simp
  | cons x xs ih =>
    intro st
    simp [List.foldl_cons, ih, validateStep_frame]

/-- C7: autofix frame — validation (with or without autofix) never
mutates any field other than `GFS_ID`; and on an issue with a malformed
identity, autofix replaces the identity with the freshly minted valid
UUID, reports the finding as a warning rather than an error, and an
out-of-vocabulary scope remains a blocking error. -/
theorem validateIssues_autofix_frame :
    (∀ (issues : List Issue) (config : RepoConfig) (fix : Bool) (supply : List String),
      ((validateIssues issues config fix supply).2).map nonIdFields =
        issues.map nonIdFields) ∧
    (validateIssues [demoBadIdIssue] demoCfgFrontend true [demoUUID] =
      (⟨false, ["Row 2: Invalid Scope \"bogus\". Must be one of: frontend"],
        ["Row 2: Invalid GFS_ID format, regenerated", "Row 2: Milestone is empty"]⟩,
       [{ demoBadIdIssue with GFS_ID := demoUUID }]) ∧
     isValidUUID demoUUID = true) := by
  constructor
  · intro issues config fix supply
    unfold validateIssues
    rw [validateFold_frame]
    simp [Function.comp]
    rw [show (fun ix : Nat × Issue => nonIdFields ix.2) =
          (nonIdFields ∘ Prod.snd) from rfl]
    rw [← List.map_map, List.enum_map_snd]
  · exact ⟨by decide, by decide⟩

/-! ## Marker-codec lemmas -/

/-- Identity-class characters are not whitespace. -/
lemma isIdChar_not_ws {c : Char} (h : isIdChar c = true) : isWS c = false := by
  simp [isIdChar] at h
  simp [isWS]
  omega

/-- Identity-class characters are not `<`. -/
lemma isIdChar_ne_lt {c : Char} (h : isIdChar c = true) : c.toNat ≠ 60 := by
  simp [isIdChar] at h
  omega

/-- Identity-class characters are not newline. -/
lemma isIdChar_ne_nl {c : Char} (h : isIdChar c = true) : c.toNat ≠ 10 := by
  simp [isIdChar] at h
  omega

/-- Hex characters are identity-class characters. -/
lemma isHexChar_isIdChar {c : Char} (h : isHexChar c = true) : isIdChar c = true := by
  simp [isHexChar] at h
  simp [isIdChar]
  omega

/-- A character other than `<` fails the case-insensitive comparison
with `<`. -/
lemma charEqCI_lt_false {c : Char} (h : c.toNat ≠ 60) : charEqCI '<' c = false := by
  simp [charEqCI, lowerN]
  split <;> omega

/-- Matching a literal against itself followed by anything succeeds. -/
lemma stripPrefixCI_append (p s : Chars) : stripPrefixCI p (p ++ s) = some s := by
  induction p with
  | nil => rfl
  | cons c cs ih => simp [stripPrefixCI, charEqCI, ih]

/-- `dropWhile` over a run of satisfied characters. -/
lemma dropWhile_append_of_all {p : Char → Bool} {l : Chars}
    (h : ∀ c ∈ l, p c = true) (r : Chars) :
    (l ++ r).dropWhile p = r.dropWhile p := by
  induction l with
  | nil => rfl
  | cons c cs ih =>
    simp [List.dropWhile_cons, h c (by simp)]
    exact ih (fun x hx => h x (by simp [hx]))

/-- `takeWhile` over a run of satisfied characters. -/
lemma takeWhile_append_of_all {p : Char → Bool} {l : Chars}
    (h : ∀ c ∈ l, p c = true) (r : Chars) :
    (l ++ r).takeWhile p = l ++ r.takeWhile p := by
  induction l with
  | nil => rfl
  | cons c cs ih =>
    simp [List.takeWhile_cons, h c (by simp)]
    exact ih (fun x hx => h x (by simp [hx]))

/-- The marker pattern matches at the start of a marker: label, one
space, a nonempty class run, one space, the closing arrow.  The capture
is the run and the remainder is everything after the arrow. -/
lemma matchMarkerAt_marker {label : Chars} {cls : Char → Bool} {tok rest : Chars}
    (hne : tok ≠ []) (hall : ∀ c ∈ tok, cls c = true)
    (hdisj : ∀ c, cls c = true → isWS c = false) :
    matchMarkerAt label cls (label ++ ' ' :: (tok ++ ' ' :: '-' :: '-' :: '>' :: rest)) =
      some (tok, rest) := by
  have hsp : cls ' ' = false := by
    cases hc : cls ' ' with
    | false => rfl
    | true => exact absurd (hdisj ' ' hc) (by decide)
  cases tok with
  | nil => exact absurd rfl hne
  | cons t ts =>
    have hclt : cls t = true := hall t (by simp)
    have hws : isWS t = false := hdisj t hclt
    have hts : ∀ c ∈ ts, cls c = true := fun c hc => hall c (by simp [hc])
    unfold matchMarkerAt
    rw [stripPrefixCI_append]
    dsimp only
    have hdw : (' ' :: (t :: ts ++ ' ' :: '-' :: '-' :: '>' :: rest)).dropWhile isWS =
        t :: ts ++ ' ' :: '-' :: '-' :: '>' :: rest := by
      simp [List.dropWhile_cons, hws, show isWS ' ' = true from by decide]
    rw [hdw]
    have htw : (t :: ts ++ ' ' :: '-' :: '-' :: '>' :: rest).takeWhile cls = t :: ts := by
      rw [show t :: ts ++ ' ' :: '-' :: '-' :: '>' :: rest =
            (t :: ts) ++ ' ' :: '-' :: '-' :: '>' :: rest from rfl]
      rw [takeWhile_append_of_all (by simpa [hclt] using hts)]
      simp [List.takeWhile_cons, hsp]
    have hdw2 : (t :: ts ++ ' ' :: '-' :: '-' :: '>' :: rest).dropWhile cls =
        ' ' :: '-' :: '-' :: '>' :: rest := by
      rw [show t :: ts ++ ' ' :: '-' :: '-' :: '>' :: rest =
            (t :: ts) ++ ' ' :: '-' :: '-' :: '>' :: rest from rfl]
      rw [dropWhile_append_of_all (by simpa [hclt] using hts)]
      simp [List.dropWhile_cons, hsp]
    rw [htw, hdw2]
    show greedySplit (t :: ts) (' ' :: '-' :: '-' :: '>' :: rest) (ts.length + 1) =
      some (t :: ts, rest)
    unfold greedySplit
    rw [show (t :: ts).drop (ts.length + 1) = [] by simp]
    rw [show matchCloseWS ([] ++ ' ' :: '-' :: '-' :: '>' :: rest) = some rest by
      simp [matchCloseWS, List.dropWhile_cons, show isWS ' ' = true from by decide,
            show isWS '-' = false from by decide]]
    rw [show (t :: ts).take (ts.length + 1) = t :: ts by simp]

/-- A leftmost scan returns the position-0 match when one exists. -/
lemma scanMarker_of_matchAt {label : Chars} {cls : Char → Bool} {s cap after : Chars}
    (hs : s ≠ []) (h : matchMarkerAt label cls s = some (cap, after)) :
    scanMarker label cls s = some ([], cap, after) := by
  cases s with
  | nil => exact absurd rfl hs
  | cons c cs => simp [scanMarker, h]

/-- A failing position is skipped by the leftmost scan. -/
lemma scanMarker_cons_none {label : Chars} {cls : Char → Bool} {c : Char} {cs : Chars}
    (h : matchMarkerAt label cls (c :: cs) = none) :
    scanMarker label cls (c :: cs) =
      (scanMarker label cls cs).map (fun x => (c :: x.1, x.2.1, x.2.2)) := by
  simp only [scanMarker, h]
  cases scanMarker label cls cs with
  | none => rfl
  | some x => rfl

/-- A marker pattern (whose label starts with `<`) cannot match at a
position whose character is not `<`. -/
lemma matchMarkerAt_none_head {ls : Chars} {cls : Char → Bool} {c : Char} {cs : Chars}
    (hc : c.toNat ≠ 60) :
    matchMarkerAt ('<' :: ls) cls (c :: cs) = none := by
  unfold matchMarkerAt
  simp [stripPrefixCI, charEqCI_lt_false hc]

/-- The leftmost scan skips over a block of characters none of which is
`<`. -/
lemma scanMarker_append_no_lt {ls : Chars} {cls : Char → Bool} :
    ∀ (p : Chars), (∀ c ∈ p, c.toNat ≠ 60) → ∀ s : Chars,
    scanMarker ('<' :: ls) cls (p ++ s) =
      (scanMarker ('<' :: ls) cls s).map (fun x => (p ++ x.1, x.2.1, x.2.2)) := by
  intro p hp
  induction p with
  | nil =>
    intro s
    cases h : scanMarker ('<' :: ls) cls s <;> simp [h]
  | cons c cs ih =>
    intro s
    rw [List.cons_append, scanMarker_cons_none (matchMarkerAt_none_head (hp c (by simp)))]
    rw [ih (fun x hx => hp x (by simp [hx])) s]
    cases h : scanMarker ('<' :: ls) cls s <;> simp [h]

/-- Unfolding of `tokenOKb`. -/
lemma tokenOKb_spec {s : String} (h : tokenOKb s = true) :
    s.data ≠ [] ∧ ∀ c ∈ s.data, isIdChar c = true := by
  simp only [tokenOKb, Bool.and_eq_true, Bool.not_eq_true', List.isEmpty_eq_false,
    List.all_eq_true] at h
  exact h

/-- Unfolding of `hexOKb`. -/
lemma hexOKb_spec {s : String} (h : hexOKb s = true) :
    s.data ≠ [] ∧ ∀ c ∈ s.data, isHexChar c = true := by
  simp only [hexOKb, Bool.and_eq_true, Bool.not_eq_true', List.isEmpty_eq_false,
    List.all_eq_true] at h
  exact h

/-- The character data of an inserted identity marker. -/
lemma insertGfsId_data (body gfsId : String) :
    (insertGfsId body gfsId).data =
      gfsIdLabel ++ ' ' :: (gfsId.data ++ ' ' :: '-' :: '-' :: '>' :: '\n' ::
        removeFirstMarker gfsIdLabel isIdChar body.data) := by
  show "<!-- GFS-ID: ".data ++ gfsId.data ++ " -->\n".data ++
      removeFirstMarker gfsIdLabel isIdChar body.data = _
  rw [show "<!-- GFS-ID: ".data = gfsIdLabel ++ [' '] from by decide]
  rw [show " -->\n".data = [' ', '-', '-', '>', '\n'] from by decide]
  simp

/-- The identity extraction recovers a wellformed token from a body
produced by `insertGfsId`. -/
lemma extractGfsId_insert (body gfsId : String) (hid : tokenOKb gfsId = true) :
    extractGfsId (insertGfsId body gfsId) = some gfsId := by
  obtain ⟨hne, hall⟩ := tokenOKb_spec hid
  unfold extractGfsId
  rw [insertGfsId_data]
  rw [scanMarker_of_matchAt
    (by rw [show gfsIdLabel = '<' :: "!-- GFS-ID:".data from by decide]; simp)
    (matchMarkerAt_marker hne hall (fun c hc => isIdChar_not_ws hc))]

/-- The hash pattern does not match at the start of an identity
marker (mismatch at the `I` of `GFS-ID`). -/
lemma matchMarkerAt_hash_idprefix (cls : Char → Bool) (rest : Chars) :
    matchMarkerAt gfsHashLabel cls ("<!-- GFS-I".data ++ rest) = none := rfl

/-- Scanning for the hash marker skips an identity header whose token
consists of identity-class characters. -/
lemma scanHash_idheader (idc : Chars) (tailp : Chars)
    (hall : ∀ c ∈ idc, isIdChar c = true) :
    scanMarker gfsHashLabel isHexChar
      (gfsIdLabel ++ ' ' :: (idc ++ ' ' :: '-' :: '-' :: '>' :: tailp)) =
    (scanMarker gfsHashLabel isHexChar tailp).map
      (fun x => ((gfsIdLabel ++ ' ' :: (idc ++ [' ', '-', '-', '>'])) ++ x.1,
                 x.2.1, x.2.2)) := by
  have hp : ∀ c ∈ "!-- GFS-ID:".data ++ ' ' :: (idc ++ [' ', '-', '-', '>']),
      c.toNat ≠ 60 := by
    intro c hc
    rcases List.mem_append.mp hc with h1 | h1
    · exact (by decide : ∀ x ∈ "!-- GFS-ID:".data, x.toNat ≠ 60) c h1
    · rcases List.mem_cons.mp h1 with rfl | h2
      · decide
      · rcases List.mem_append.mp h2 with h3 | h3
        · exact isIdChar_ne_lt (hall c h3)
        · exact (by decide : ∀ x ∈ ([' ', '-', '-', '>'] : Chars), x.toNat ≠ 60) c h3
  have hshape : gfsIdLabel ++ ' ' :: (idc ++ ' ' :: '-' :: '-' :: '>' :: tailp) =
      '<' :: (("!-- GFS-ID:".data ++ ' ' :: (idc ++ [' ', '-', '-', '>'])) ++ tailp) := by
    rw [show gfsIdLabel = '<' :: "!-- GFS-ID:".data from by decide]
    simp
  rw [hshape]
  have hlab : gfsHashLabel = '<' :: "!-- GFS-HASH:".data := by decide
  have h0 : matchMarkerAt gfsHashLabel isHexChar
      ('<' :: (("!-- GFS-ID:".data ++ ' ' :: (idc ++ [' ', '-', '-', '>'])) ++ tailp)) =
      none := rfl
  rw [hlab] at h0 ⊢
  rw [scanMarker_cons_none h0]
  rw [scanMarker_append_no_lt _ hp tailp]
  cases hx : scanMarker ('<' :: "!-- GFS-HASH:".data) isHexChar tailp with
  | none => rfl
  | some x =>
    simp only [Option.map_some']
    rw [show gfsIdLabel = '<' :: "!-- GFS-ID:".data from by decide]
    simp

/-- Removing the first hash marker commutes with an identity header. -/
lemma removeHash_idheader (idc tailp : Chars)
    (hall : ∀ c ∈ idc, isIdChar c = true) :
    removeFirstMarker gfsHashLabel isHexChar
      (gfsIdLabel ++ ' ' :: (idc ++ ' ' :: '-' :: '-' :: '>' :: tailp)) =
    gfsIdLabel ++ ' ' :: (idc ++ ' ' :: '-' :: '-' :: '>' ::
      removeFirstMarker gfsHashLabel isHexChar tailp) := by
  unfold removeFirstMarker
  rw [scanHash_idheader idc tailp hall]
  cases h : scanMarker gfsHashLabel isHexChar tailp with
  | none => rfl
  | some x => simp

/-- The `isPrefixOf` test succeeds on an extension of the pattern. -/
lemma isPrefixOf_self_append (l x : Chars) : List.isPrefixOf l (l ++ x) = true := by
  induction l with
  | nil => simp
  | cons c cs ih => simp [List.isPrefixOf, ih]

/-- Dropping past a left factor of an append. -/
lemma drop_append_len {α : Type} (l₁ l₂ : List α) (n : Nat) :
    (l₁ ++ l₂).drop (l₁.length + n) = l₂.drop n := by
  induction l₁ with
  | nil => simp
  | cons c cs ih =>
    rw [List.cons_append, List.length_cons,
        show cs.length + 1 + n = (cs.length + n) + 1 by omega, List.drop_succ_cons, ih]

/-- `-->` cannot occur at an offset leaving fewer than three
characters. -/
lemma arrowAt_false_of_short {line : Chars} {k : Nat} (h : line.length < k + 3) :
    arrowAt line k = false := by
  cases harr : arrowAt line k with
  | false => rfl
  | true =>
    exfalso
    unfold arrowAt at harr
    split at harr
    · next tail heq =>
      have hlen := congrArg List.length heq
      simp [List.length_drop] at hlen
      omega
    · exact absurd harr (by simp)

/-- The greedy search for the last arrow finds the unique candidate. -/
lemma lastArrow_spec {line : Chars} {target : Nat} (ht : arrowAt line target = true) :
    ∀ n, target ≤ n → (∀ k, target < k → k ≤ n → arrowAt line k = false) →
    lastArrow line n = some target := by
  intro n
  induction n with
  | zero =>
    intro h1 _
    have h0 : target = 0 := Nat.le_zero.mp h1
    subst h0
    simp [lastArrow, ht]
  | succ m ih =>
    intro h1 h2
    by_cases he : target = m + 1
    · subst he
      simp [lastArrow, ht]
    · have hle : target ≤ m := by omega
      have hfalse : arrowAt line (m + 1) = false := h2 (m + 1) (by omega) (Nat.le_refl _)
      rw [lastArrow, hfalse]
      simp only [Bool.false_eq_true, if_false]
      exact ih hle (fun k hk1 hk2 => h2 k hk1 (by omega))

/-- The case-sensitive id-comment pattern matches an identity marker
at position 0 and matches exactly its text. -/
lemma matchIdCommentAt_marker (idc rest : Chars)
    (hall : ∀ c ∈ idc, isIdChar c = true) :
    matchIdCommentAt (gfsIdLabel ++ ' ' :: (idc ++ ' ' :: '-' :: '-' :: '>' :: '\n' :: rest)) =
      some (gfsIdLabel ++ ' ' :: (idc ++ [' ', '-', '-', '>']), '\n' :: rest) := by
  have hnl : ∀ c ∈ idc, (!(c.toNat == 10)) = true := by
    intro c hc
    simp [isIdChar_ne_nl (hall c hc)]
  unfold matchIdCommentAt
  rw [if_pos (isPrefixOf_self_append _ _)]
  dsimp only
  rw [show (gfsIdLabel ++ ' ' :: (idc ++ ' ' :: '-' :: '-' :: '>' :: '\n' :: rest)).drop
        gfsIdLabel.length = ' ' :: (idc ++ ' ' :: '-' :: '-' :: '>' :: '\n' :: rest) from by
      simp]
  have hline : (' ' :: (idc ++ ' ' :: '-' :: '-' :: '>' :: '\n' :: rest)).takeWhile
      (fun c => !(c.toNat == 10)) = ' ' :: (idc ++ [' ', '-', '-', '>']) := by
    rw [show idc ++ ' ' :: '-' :: '-' :: '>' :: '\n' :: rest =
          idc ++ ([' ', '-', '-', '>'] ++ '\n' :: rest) from by simp]
    simp [List.takeWhile_cons, takeWhile_append_of_all hnl]
  rw [hline]
  have harr : arrowAt (' ' :: (idc ++ [' ', '-', '-', '>'])) (idc.length + 2) = true := by
    unfold arrowAt
    rw [show (' ' :: (idc ++ [' ', '-', '-', '>']) : Chars) =
          (' ' :: idc) ++ [' ', '-', '-', '>'] from by simp]
    rw [show idc.length + 2 = (' ' :: idc).length + 1 from by simp]
    rw [drop_append_len]
    rfl
  have hlast : lastArrow (' ' :: (idc ++ [' ', '-', '-', '>']))
      ((' ' :: (idc ++ [' ', '-', '-', '>'])).length) = some (idc.length + 2) := by
    apply lastArrow_spec harr
    · simp
    · intro k hk1 hk2
      apply arrowAt_false_of_short
      simp at hk2 ⊢
      omega
  rw [hlast]
  have htake : (' ' :: (idc ++ [' ', '-', '-', '>'])).take (idc.length + 2 + 3) =
      ' ' :: (idc ++ [' ', '-', '-', '>']) := by
    rw [show idc.length + 2 + 3 = (' ' :: (idc ++ [' ', '-', '-', '>'])).length from by
          simp +arith]
    exact List.take_length _
  have hdropr : (' ' :: (idc ++ ' ' :: '-' :: '-' :: '>' :: '\n' :: rest)).drop
      (idc.length + 2 + 3) = '\n' :: rest := by
    rw [show (' ' :: (idc ++ ' ' :: '-' :: '-' :: '>' :: '\n' :: rest) : Chars) =
          (' ' :: (idc ++ [' ', '-', '-', '>'])) ++ '\n' :: rest from by simp]
    rw [show idc.length + 2 + 3 = (' ' :: (idc ++ [' ', '-', '-', '>'])).length + 0 from by
          simp +arith]
    rw [drop_append_len]
    rfl
  dsimp only
  rw [htake, hdropr]

/-- The leftmost id-comment scan returns a position-0 match. -/
lemma scanIdComment_of_matchAt {s m after : Chars}
    (hs : s ≠ []) (h : matchIdCommentAt s = some (m, after)) :
    scanIdComment s = some ([], m, after) := by
  cases s with
  | nil => exact absurd rfl hs
  | cons c cs => simp [scanIdComment, h]

/-- The removal scan steps over a non-matching head character. -/
lemma removeFirstMarker_cons_none {label : Chars} {cls : Char → Bool} {c : Char} {cs : Chars}
    (h : matchMarkerAt label cls (c :: cs) = none) :
    removeFirstMarker label cls (c :: cs) = c :: removeFirstMarker label cls cs := by
  unfold removeFirstMarker
  rw [scanMarker_cons_none h]
  cases hx : scanMarker label cls cs with
  | none => rfl
  | some x => rfl

/-- The hash scan on a canonical body (identity header, newline, hash
marker, tail) captures the digest. -/
lemma scanHash_canonical (idc hcs tailp : Chars)
    (hallid : ∀ c ∈ idc, isIdChar c = true)
    (hneh : hcs ≠ []) (hallh : ∀ c ∈ hcs, isHexChar c = true) :
    ∃ pre, scanMarker gfsHashLabel isHexChar
      (gfsIdLabel ++ ' ' :: (idc ++ ' ' :: '-' :: '-' :: '>' :: '\n' ::
        (gfsHashLabel ++ ' ' :: (hcs ++ ' ' :: '-' :: '-' :: '>' :: tailp)))) =
      some (pre, hcs, tailp) := by
  have hmark : scanMarker gfsHashLabel isHexChar
      (gfsHashLabel ++ ' ' :: (hcs ++ ' ' :: '-' :: '-' :: '>' :: tailp)) =
      some ([], hcs, tailp) :=
    scanMarker_of_matchAt
      (by rw [show gfsHashLabel = '<' :: "!-- GFS-HASH:".data from by decide]; simp)
      (matchMarkerAt_marker hneh hallh (fun c hc => isIdChar_not_ws (isHexChar_isIdChar hc)))
  have hnlstep : scanMarker gfsHashLabel isHexChar
      ('\n' :: (gfsHashLabel ++ ' ' :: (hcs ++ ' ' :: '-' :: '-' :: '>' :: tailp))) =
      some (['\n'], hcs, tailp) := by
    rw [show gfsHashLabel = '<' :: "!-- GFS-HASH:".data from by decide] at hmark ⊢
    rw [scanMarker_cons_none (matchMarkerAt_none_head (by decide)), hmark]
    rfl
  have hmain : scanMarker gfsHashLabel isHexChar
      (gfsIdLabel ++ ' ' :: (idc ++ ' ' :: '-' :: '-' :: '>' :: '\n' ::
        (gfsHashLabel ++ ' ' :: (hcs ++ ' ' :: '-' :: '-' :: '>' :: tailp)))) =
      some ((gfsIdLabel ++ ' ' :: (idc ++ [' ', '-', '-', '>'])) ++ ['\n'], hcs, tailp) := by
    rw [scanHash_idheader idc _ hallid, hnlstep]
    rfl
  exact ⟨_, hmain⟩

/-- C3 (amended): marker round-trip — for every identity token that the
identity pattern can represent (nonempty, hex digits and dashes), every
digest the hash pattern can represent (nonempty hex), and an arbitrary
starting body, including bodies already containing stale markers,
extraction after insertion recovers the inserted identity and digest. -/
theorem marker_roundtrip (b id h : String)
    (hid : tokenOKb id = true) (hh : hexOKb h = true) :
    extractGfsId (insertGfsId b id) = some id ∧
    extractContentHash (insertContentHash (insertGfsId b id) h) = some h := by
  obtain ⟨hneid, hallid⟩ := tokenOKb_spec hid
  obtain ⟨hneh, hallh⟩ := hexOKb_spec hh
  refine ⟨extractGfsId_insert b id hid, ?_⟩
  have hdata : insertContentHash (insertGfsId b id) h = String.mk
      (gfsIdLabel ++ ' ' :: (id.data ++ ' ' :: '-' :: '-' :: '>' :: '\n' ::
        (gfsHashLabel ++ ' ' :: (h.data ++ ' ' :: '-' :: '-' :: '>' ::
          ('\n' :: removeFirstMarker gfsHashLabel isHexChar
             (removeFirstMarker gfsIdLabel isIdChar b.data)))))) := by
    unfold insertContentHash
    rw [insertGfsId_data]
    rw [removeHash_idheader _ _ hallid]
    rw [show gfsHashLabel = '<' :: "!-- GFS-HASH:".data from by decide,
        removeFirstMarker_cons_none (matchMarkerAt_none_head (by decide)),
        show '<' :: "!-- GFS-HASH:".data = gfsHashLabel from by decide]
    dsimp only
    rw [scanIdComment_of_matchAt
          (by rw [show gfsIdLabel = '<' :: "!-- GFS-ID:".data from by decide]; simp)
          (matchIdCommentAt_marker _ _ hallid)]
    show String.mk _ = String.mk _
    congr 1
    simp [show gfsHashLabel = ['<', '!', '-', '-', ' ', 'G', 'F', 'S', '-', 'H', 'A',
            'S', 'H', ':'] from by decide,
          show gfsIdLabel = ['<', '!', '-', '-', ' ', 'G', 'F', 'S', '-', 'I', 'D',
            ':'] from by decide]
  rw [hdata]
  unfold extractContentHash
  dsimp only
  obtain ⟨pre, hscan⟩ := scanHash_canonical id.data h.data _ hallid hneh hallh
  rw [hscan]

/-- Witness for C3 on a body that already contains stale identity and
hash markers. -/
theorem marker_roundtrip_witness :
    extractGfsId (insertGfsId "<!-- GFS-ID: aa -->\n<!-- GFS-HASH: beef -->\nbody"
      "12ab-34cd") = some "12ab-34cd" ∧
    extractContentHash (insertContentHash
      (insertGfsId "<!-- GFS-ID: aa -->\n<!-- GFS-HASH: beef -->\nbody" "12ab-34cd")
      "deadbeef") = some "deadbeef" :=
  marker_roundtrip _ _ _ (by decide) (by decide)

/-- Counterexample for C3 as frozen: with the identity token `zz`,
which the extraction pattern `[a-f0-9\-]+` cannot match, the round-trip
fails even on an empty starting body. -/
theorem marker_roundtrip_counterexample :
    ¬ extractGfsId (insertGfsId "" "zz") = some "zz" := by decide

/-- A zero marker count means the identity scan finds nothing. -/
lemma countZero_scanNone {l : Chars}
    (h : countMarkersGo gfsIdLabel isIdChar l.length l = 0) :
    scanMarker gfsIdLabel isIdChar l = none := by
  cases l with
  | nil => rfl
  | cons c cs =>
    cases hx : scanMarker gfsIdLabel isIdChar (c :: cs) with
    | none => rfl
    | some x =>
      obtain ⟨pre, cap, after⟩ := x
      rw [List.length_cons, countMarkersGo, hx] at h
      dsimp only at h
      omega

/-- If the scan finds nothing, the marker count is zero at any fuel. -/
lemma countGo_of_scan_none {fuel : Nat} {s : Chars}
    (h : scanMarker gfsIdLabel isIdChar s = none) :
    countMarkersGo gfsIdLabel isIdChar fuel s = 0 := by
  cases fuel with
  | zero => rfl
  | succ m => simp [countMarkersGo, h]

/-- A scan finding nothing on a list finds nothing on its tail. -/
lemma scanMarker_none_tail {label : Chars} {cls : Char → Bool} {c : Char} {cs : Chars}
    (h : scanMarker label cls (c :: cs) = none) :
    scanMarker label cls cs = none := by
  cases hx : scanMarker label cls cs with
  | none => rfl
  | some x =>
    cases hm : matchMarkerAt label cls (c :: cs) with
    | some y => simp [scanMarker, hm] at h
    | none =>
      rw [scanMarker_cons_none hm, hx] at h
      simp at h

/-- A scan finding nothing is stable under dropping a prefix. -/
lemma scanMarker_none_dropWhile {label : Chars} {cls : Char → Bool} {p : Char → Bool}
    {l : Chars} (h : scanMarker label cls l = none) :
    scanMarker label cls (l.dropWhile p) = none := by
  induction l with
  | nil => simpa using h
  | cons c cs ih =>
    rw [List.dropWhile_cons]
    split
    · exact ih (scanMarker_none_tail h)
    · exact h

/-- Removal is the identity when the scan finds nothing. -/
lemma removeFirstMarker_of_none {label : Chars} {cls : Char → Bool} {l : Chars}
    (h : scanMarker label cls l = none) :
    removeFirstMarker label cls l = l := by
  unfold removeFirstMarker
  rw [h]

/-- Dropping a prefix twice equals dropping it once. -/
lemma dropWhile_idem {α : Type} (p : α → Bool) (l : List α) :
    (l.dropWhile p).dropWhile p = l.dropWhile p := by
  induction l with
  | nil => rfl
  | cons c cs ih =>
    rw [List.dropWhile_cons]
    split
    · exact ih
    · rw [List.dropWhile_cons]
      split
      · simp_all
      · rfl

/-- A canonical single-marker body counts exactly one identity
marker. -/
lemma countGfs_marker_body (t d : Chars) (hne : t ≠ [])
    (hall : ∀ c ∈ t, isIdChar c = true)
    (hd : scanMarker gfsIdLabel isIdChar d = none) :
    countMarkersGo gfsIdLabel isIdChar
      ((gfsIdLabel ++ ' ' :: (t ++ ' ' :: '-' :: '-' :: '>' :: '\n' :: d)).length)
      (gfsIdLabel ++ ' ' :: (t ++ ' ' :: '-' :: '-' :: '>' :: '\n' :: d)) = 1 := by
  have hlen : (gfsIdLabel ++ ' ' :: (t ++ ' ' :: '-' :: '-' :: '>' :: '\n' :: d)).length =
      (t.length + d.length + 17) + 1 := by
    simp [List.length_append, List.length_cons,
          show gfsIdLabel.length = 12 from by decide]
    omega
  rw [hlen, countMarkersGo]
  rw [scanMarker_of_matchAt
        (by rw [show gfsIdLabel = '<' :: "!-- GFS-ID:".data from by decide]; simp)
        (matchMarkerAt_marker hne hall (fun c hc => isIdChar_not_ws hc))]
  have hnl : scanMarker gfsIdLabel isIdChar ('\n' :: d) = none := by
    rw [show gfsIdLabel = '<' :: "!-- GFS-ID:".data from by decide] at hd ⊢
    rw [scanMarker_cons_none (matchMarkerAt_none_head (by decide)), hd]
    rfl
  dsimp only
  rw [countGo_of_scan_none hnl]

/-- C4 (amended): for a wellformed token and a body containing no
identity marker, applying `insertGfsId` twice with the same token
yields a body with exactly one identity marker, and from the second
application on the operation is a fixed point: repeated application
converges instead of accumulating markers. -/
theorem insertGfsId_idempotent (b t : String)
    (ht : tokenOKb t = true) (hb : countGfsMarkers b = 0) :
    countGfsMarkers (insertGfsId (insertGfsId b t) t) = 1 ∧
    insertGfsId (insertGfsId (insertGfsId b t) t) t =
      insertGfsId (insertGfsId b t) t := by
  obtain ⟨hne, hall⟩ := tokenOKb_spec ht
  have hscanb : scanMarker gfsIdLabel isIdChar b.data = none := by
    unfold countGfsMarkers at hb
    exact countZero_scanNone hb
  have hx1 : (insertGfsId b t).data =
      gfsIdLabel ++ ' ' :: (t.data ++ ' ' :: '-' :: '-' :: '>' :: '\n' :: b.data) := by
    rw [insertGfsId_data, removeFirstMarker_of_none hscanb]
  have hrem : ∀ d : Chars,
      removeFirstMarker gfsIdLabel isIdChar
        (gfsIdLabel ++ ' ' :: (t.data ++ ' ' :: '-' :: '-' :: '>' :: '\n' :: d)) =
      d.dropWhile (fun c => c.toNat == 10) := by
    intro d
    unfold removeFirstMarker
    rw [scanMarker_of_matchAt
          (by rw [show gfsIdLabel = '<' :: "!-- GFS-ID:".data from by decide]; simp)
          (matchMarkerAt_marker hne hall (fun c hc => isIdChar_not_ws hc))]
    simp [List.dropWhile_cons]
  have hx2 : (insertGfsId (insertGfsId b t) t).data =
      gfsIdLabel ++ ' ' :: (t.data ++ ' ' :: '-' :: '-' :: '>' :: '\n' ::
        (b.data.dropWhile (fun c => c.toNat == 10))) := by
    rw [insertGfsId_data, hx1, hrem]
  constructor
  · unfold countGfsMarkers
    rw [hx2]
    exact countGfs_marker_body t.data _ hne hall
      (scanMarker_none_dropWhile hscanb)
  · show String.mk _ = String.mk _
    congr 1
    rw [hx2, hrem, dropWhile_idem, hx1, hrem]

/-- Witness for C4 at a concrete marker-free body and token. -/
theorem insertGfsId_idempotent_witness :
    countGfsMarkers (insertGfsId (insertGfsId "plain body" "12ab") "12ab") = 1 ∧
    insertGfsId (insertGfsId (insertGfsId "plain body" "12ab") "12ab") "12ab" =
      insertGfsId (insertGfsId "plain body" "12ab") "12ab" :=
  insertGfsId_idempotent _ _ (by decide) (by decide)

/-- Counterexample for C4 as frozen: a starting body holding two stale
identity markers keeps a straggler, because `insertGfsId` removes only
the first pre-existing marker; double insertion leaves two markers. -/
theorem insertGfsId_idempotent_counterexample :
    ¬ countGfsMarkers (insertGfsId (insertGfsId
        "<!-- GFS-ID: aa -->\nx\n<!-- GFS-ID: bb -->\n" "cc") "cc") = 1 := by decide

/-! ## Call accounting for the reconciliation engine -/

/-- `msFetchCount` distributes over appended call logs. -/
lemma msFetchCount_append (a b : List GhCall) :
    msFetchCount (a ++ b) = msFetchCount a + msFetchCount b := by
  simp [msFetchCount, List.filter_append]

/-- Milestone resolution fetches the milestone list exactly once for a
non-blank title, and never for a blank one. -/
lemma prepareMilestoneArg_msFetch (st : RemoteState) (title : String) (ac dr : Bool) :
    msFetchCount (prepareMilestoneArg st title ac dr).2.calls =
      msFetchCount st.calls + (if strBlank title then 0 else 1) := by
  unfold prepareMilestoneArg listMilestones createMilestone
  split_ifs <;>
    simp_all [msFetchCount, List.filter_append, List.filter_cons, beq_iff_eq] <;>
    split_ifs <;>
    simp_all [List.filter_append, List.filter_cons, beq_iff_eq]

/-- Issue updates issue no milestone fetch. -/
lemma updateGithubIssue_msFetch (st : RemoteState) (n : Nat) (issue : Issue) (dr : Bool) :
    msFetchCount (updateGithubIssue st n issue dr).calls = msFetchCount st.calls := by
  unfold updateGithubIssue
  split_ifs <;> simp [msFetchCount, List.filter_append, List.filter_cons, beq_iff_eq]

/-- Issue creation issues no milestone fetch. -/
lemma createGithubIssue_msFetch (st : RemoteState) (issue : Issue) (dr : Bool) :
    msFetchCount (createGithubIssue st issue dr).2.calls = msFetchCount st.calls := by
  unfold createGithubIssue
  split_ifs <;> simp [msFetchCount, List.filter_append, List.filter_cons, beq_iff_eq]

/-- Label addition issues no milestone fetch. -/
lemma addLabelsToIssue_msFetch (st : RemoteState) (n : Nat) (labels : List String)
    (dr : Bool) :
    msFetchCount (addLabelsToIssue st n labels dr).calls = msFetchCount st.calls := by
  unfold addLabelsToIssue
  split_ifs <;> simp [msFetchCount, List.filter_append, List.filter_cons, beq_iff_eq]

/-- Each import-loop iteration fetches the milestone list exactly once
when the issue reaches milestone resolution, and never otherwise. -/
lemma importStep_msFetch (opts : ImportOptions) (existing : List GithubIssue)
    (acc : RemoteState × ImportSummary) (issue : Issue) :
    msFetchCount (importStep opts existing acc issue).1.calls =
      msFetchCount acc.1.calls +
        (if reachesResolution opts existing issue then 1 else 0) := by
  obtain ⟨st, sum⟩ := acc
  unfold importStep reachesResolution
  cases hfind : findIssueByGfsId issue.GFS_ID existing with
  | some ex =>
    simp only [hfind]
    by_cases hco : opts.createOnly
    · simp [hco]
    by_cases hsame : (extractContentHash ex.body == some (computeContentHash issue)) = true
    · simp [hco, hsame]
    by_cases hdry : opts.dryRun
    · simp [hco, hsame, hdry]
    · simp only [hco, hsame, hdry, if_false, Bool.false_eq_true, if_neg,
        Bool.not_false, Bool.true_and, Bool.and_true]
      split_ifs <;>
        simp_all [addLabelsToIssue_msFetch, updateGithubIssue_msFetch,
          prepareMilestoneArg_msFetch]
  | none =>
    simp only [hfind]
    by_cases huo : opts.updateOnly
    · simp [huo]
    by_cases hdry : opts.dryRun
    · simp [huo, hdry]
    · simp only [huo, hdry, if_false, Bool.false_eq_true, if_neg, Bool.not_false,
        Bool.true_and, Bool.and_true]
      split_ifs <;>
        simp_all [addLabelsToIssue_msFetch, createGithubIssue_msFetch,
          prepareMilestoneArg_msFetch]

/-- Folding the import loop accumulates one milestone fetch per issue
reaching resolution. -/
lemma importFold_msFetch (opts : ImportOptions) (existing : List GithubIssue) :
    ∀ (issues : List Issue) (acc : RemoteState × ImportSummary),
    msFetchCount ((issues.foldl (importStep opts existing) acc).1.calls) =
      msFetchCount acc.1.calls +
        (issues.filter (reachesResolution opts existing)).length := by
  intro issues
  induction issues with
  | nil => intro acc; simp
  | cons i rest ih =>
    intro acc
    rw [List.foldl_cons, ih, importStep_msFetch, List.filter_cons]
    split_ifs <;> simp +arith

/-- C9 (amended): during one run of `importIssues`, the remote
milestone list is fetched exactly once for each issue that reaches the
milestone-resolution step (each non-dry-run created or updated issue
whose milestone is non-blank) — once per such issue, not once per
run, and it is not cached within the run. -/
theorem listMilestones_per_resolving_issue (issues : List Issue)
    (opts : ImportOptions) (st0 : RemoteState) :
    msFetchCount (importIssues issues opts st0).2.calls =
      msFetchCount st0.calls +
        (issues.filter (reachesResolution opts st0.issues)).length := by
  unfold importIssues
  rw [importFold_msFetch]
  simp [msFetchCount_append, msFetchCount, List.filter_cons, beq_iff_eq]

/-- Counterexample for C9 as frozen: a run importing two fresh issues
that both carry an existing milestone performs two milestone-list
fetches, refuting 'at most once per run'. -/
theorem listMilestones_once_counterexample :
    ¬ msFetchCount (importIssues [demoIssueV1, demoIssueV1b] demoOpts
        demoRemoteV1).2.calls ≤ 1 := by decide

/-- `labelCalls` distributes over appended call logs. -/
lemma labelCalls_append (a b : List GhCall) :
    labelCalls (a ++ b) = labelCalls a ++ labelCalls b := by
  simp [labelCalls, List.filter_append]

/-- Milestone resolution issues no label-add call, and neither moves
the issue list nor the next number. -/
lemma prepareMilestoneArg_frame (st : RemoteState) (title : String) (ac dr : Bool) :
    labelCalls (prepareMilestoneArg st title ac dr).2.calls = labelCalls st.calls ∧
    (prepareMilestoneArg st title ac dr).2.issues = st.issues ∧
    (prepareMilestoneArg st title ac dr).2.nextNumber = st.nextNumber := by
  unfold prepareMilestoneArg listMilestones createMilestone
  split_ifs <;>
    simp_all [labelCalls, isAddLabelsCall, List.filter_append, List.filter_cons] <;>
    split_ifs <;>
    simp_all [isAddLabelsCall, List.filter_append, List.filter_cons]

/-- Issue updates issue no label-add call. -/
lemma updateGithubIssue_labelCalls (st : RemoteState) (n : Nat) (issue : Issue)
    (dr : Bool) :
    labelCalls (updateGithubIssue st n issue dr).calls = labelCalls st.calls := by
  unfold updateGithubIssue
  split_ifs <;> simp [labelCalls, isAddLabelsCall, List.filter_append, List.filter_cons]

/-- Issue creation issues no label-add call and returns the next
number. -/
lemma createGithubIssue_frame (st : RemoteState) (issue : Issue) :
    labelCalls (createGithubIssue st issue false).2.calls = labelCalls st.calls ∧
    (createGithubIssue st issue false).1 = st.nextNumber := by
  unfold createGithubIssue
  simp [labelCalls, isAddLabelsCall, List.filter_append, List.filter_cons]

/-- A non-empty, non-dry label addition is exactly one label-add
call. -/
lemma addLabelsToIssue_labelCalls (st : RemoteState) (n : Nat) (labels : List String)
    (h : labels ≠ []) :
    labelCalls (addLabelsToIssue st n labels false).calls =
      labelCalls st.calls ++ [GhCall.addLabels n labels] := by
  unfold addLabelsToIssue
  rw [if_neg (by simp [h])]
  simp [labelCalls, isAddLabelsCall, List.filter_append, List.filter_cons]

/-- The milestone rewrite performed before body formatting does not
change the composed labels. -/
lemma autoLabels_milestone (issue : Issue) (m : String) :
    autoLabels { issue with Milestone := m } = autoLabels issue := rfl

/-- The composed labels of an issue with set scope and size. -/
lemma autoLabels_set (issue : Issue) (sc sz : String)
    (hsc : issue.Scope = some sc) (hsc2 : sc ≠ "")
    (hsz : issue.Size = some sz) (hsz2 : sz ≠ "") :
    autoLabels issue = expectedLabels sc sz issue.Priority := by
  unfold autoLabels expectedLabels
  rw [hsc, hsz]
  simp [optTruthy, strTruthy, hsc2, hsz2]
  cases hp : issue.Priority with
  | none => rfl
  | some p =>
    by_cases hpe : p = "" <;> simp [optTruthy, strTruthy, hpe]

/-- C8: label mirroring — with auto-labels enabled, each non-dry-run
created or updated issue whose scope and size are set receives, via a
single label-add call, exactly the labels `scope:<value>`,
`size:<value>` and (when the priority is set) `priority:<value>`, the
values taken verbatim from the issue's fields. -/
theorem importStep_label_mirroring (opts : ImportOptions)
    (existing : List GithubIssue) (st : RemoteState) (sum : ImportSummary)
    (issue : Issue) (sc sz : String)
    (hlab : opts.autoCreateLabels = true) (hdry : opts.dryRun = false)
    (hsc : issue.Scope = some sc) (hsc2 : sc ≠ "")
    (hsz : issue.Size = some sz) (hsz2 : sz ≠ "") :
    (∀ ex, findIssueByGfsId issue.GFS_ID existing = some ex →
      opts.createOnly = false →
      (extractContentHash ex.body == some (computeContentHash issue)) = false →
      labelCalls (importStep opts existing (st, sum) issue).1.calls =
        labelCalls st.calls ++
          [GhCall.addLabels ex.number (expectedLabels sc sz issue.Priority)]) ∧
    (findIssueByGfsId issue.GFS_ID existing = none →
      opts.updateOnly = false →
      labelCalls (importStep opts existing (st, sum) issue).1.calls =
        labelCalls st.calls ++
          [GhCall.addLabels st.nextNumber (expectedLabels sc sz issue.Priority)]) := by
  have hne : expectedLabels sc sz issue.Priority ≠ [] := by
    unfold expectedLabels
    intro hcon
    cases issue.Priority <;> simp at hcon
  constructor
  · intro ex hfind hco hsame
    unfold importStep
    rw [hfind]
    dsimp only
    rw [if_neg (by simp [hco]), if_neg (by simp [hsame]), if_neg (by simp [hdry]),
        hdry, hlab]
    dsimp only
    rw [if_pos rfl]
    rw [addLabelsToIssue_labelCalls _ _ _ (by rw [autoLabels_milestone,
          autoLabels_set issue sc sz hsc hsc2 hsz hsz2]; exact hne)]
    rw [updateGithubIssue_labelCalls, (prepareMilestoneArg_frame st issue.Milestone
          opts.autoCreateMilestones false).1]
    rw [autoLabels_milestone, autoLabels_set issue sc sz hsc hsc2 hsz hsz2]
  · intro hfind huo
    unfold importStep
    rw [hfind]
    dsimp only
    rw [if_neg (by simp [huo]), if_neg (by simp [hdry]), hdry, hlab]
    dsimp only
    rw [if_pos rfl]
    rw [addLabelsToIssue_labelCalls _ _ _ (by rw [autoLabels_milestone,
          autoLabels_set issue sc sz hsc hsc2 hsz hsz2]; exact hne)]
    rw [(createGithubIssue_frame _ _).1, (createGithubIssue_frame _ _).2,
        (prepareMilestoneArg_frame st issue.Milestone
          opts.autoCreateMilestones false).1,
        (prepareMilestoneArg_frame st issue.Milestone
          opts.autoCreateMilestones false).2.2]
    rw [autoLabels_milestone, autoLabels_set issue sc sz hsc hsc2 hsz hsz2]

/-- Witness for C8: a concrete create and a concrete update, each
attaching its labels via one label-add call. -/
theorem importStep_label_mirroring_witness :
    (∀ ex, findIssueByGfsId demoIssueV1b.GFS_ID [] = some ex →
      (⟨false, false, false, false, true⟩ : ImportOptions).createOnly = false →
      (extractContentHash ex.body ==
        some (computeContentHash demoIssueV1b)) = false →
      labelCalls (importStep ⟨false, false, false, false, true⟩ [] (demoRemoteV1, ⟨0, 0, 0⟩)
          demoIssueV1b).1.calls =
        labelCalls demoRemoteV1.calls ++
          [GhCall.addLabels ex.number (expectedLabels "backend" "L" demoIssueV1b.Priority)]) ∧
    (findIssueByGfsId demoIssueV1b.GFS_ID [] = none →
      (⟨false, false, false, false, true⟩ : ImportOptions).updateOnly = false →
      labelCalls (importStep ⟨false, false, false, false, true⟩ [] (demoRemoteV1, ⟨0, 0, 0⟩)
          demoIssueV1b).1.calls =
        labelCalls demoRemoteV1.calls ++
          [GhCall.addLabels demoRemoteV1.nextNumber
            (expectedLabels "backend" "L" demoIssueV1b.Priority)]) :=
  importStep_label_mirroring ⟨false, false, false, false, true⟩ [] demoRemoteV1
    ⟨0, 0, 0⟩ demoIssueV1b "backend" "L" rfl rfl rfl (by decide) rfl (by decide)

/-! ## Re-import idempotence (C1) -/

/-- The character data of a freshly formatted issue body. -/
lemma formatIssueBody_data (issue : Issue) :
    (formatIssueBody issue).data =
      gfsIdLabel ++ ' ' :: (issue.GFS_ID.data ++ ' ' :: '-' :: '-' :: '>' :: '\n' ::
        (gfsHashLabel ++ ' ' :: ((computeContentHash issue).data ++
          ' ' :: '-' :: '-' :: '>' :: '\n' :: '\n' :: issue.Description.data))) := by
  show ("<!-- GFS-ID: " ++ issue.GFS_ID ++ " -->\n<!-- GFS-HASH: " ++
      computeContentHash issue ++ " -->\n\n" ++ issue.Description).data = _
  simp only [String.data_append]
  rw [show gfsIdLabel = ['<', '!', '-', '-', ' ', 'G', 'F', 'S', '-', 'I', 'D',
        ':'] from by decide,
      show gfsHashLabel = ['<', '!', '-', '-', ' ', 'G', 'F', 'S', '-', 'H', 'A',
        'S', 'H', ':'] from by decide]
  simp

/-- Identity extraction recovers a wellformed token from a freshly
formatted body. -/
lemma extractGfsId_format (issue : Issue) (hid : tokenOKb issue.GFS_ID = true) :
    extractGfsId (formatIssueBody issue) = some issue.GFS_ID := by
  obtain ⟨hne, hall⟩ := tokenOKb_spec hid
  unfold extractGfsId
  rw [formatIssueBody_data]
  rw [scanMarker_of_matchAt
    (by rw [show gfsIdLabel = '<' :: "!-- GFS-ID:".data from by decide]; simp)
    (matchMarkerAt_marker hne hall (fun c hc => isIdChar_not_ws hc))]

/-- Hex digits of values below 16 are hex characters. -/
lemma hexDigitChar_hex (n : Nat) (h : n < 16) : isHexChar (hexDigitChar n) = true :=
  (by decide : ∀ m : Nat, m < 16 → isHexChar (hexDigitChar m) = true) n h

/-- Every character of a hex rendering is a hex character. -/
lemma bytesToHex_hex (bs : List Nat) : ∀ c ∈ (bytesToHex bs).data, isHexChar c = true := by
  intro c hc
  change c ∈ (bs.map byteToHexChars).flatten at hc
  rw [List.mem_flatten] at hc
  obtain ⟨l, hl, hcl⟩ := hc
  rw [List.mem_map] at hl
  obtain ⟨b, _, rfl⟩ := hl
  simp only [byteToHexChars, List.mem_cons, List.not_mem_nil, or_false] at hcl
  rcases hcl with rfl | rfl
  · exact hexDigitChar_hex _ (by omega)
  · exact hexDigitChar_hex _ (by omega)

/-- The hex rendering of a nonempty byte list is nonempty. -/
lemma bytesToHex_ne_nil {bs : List Nat} (h : bs ≠ []) : (bytesToHex bs).data ≠ [] := by
  cases bs with
  | nil => exact absurd rfl h
  | cons b t => simp [bytesToHex, byteToHexChars]

/-- A SHA-256 digest is a nonempty byte list. -/
lemma sha256_ne_nil (msg : List Nat) : sha256 msg ≠ [] := by
  intro h
  simp [sha256, wordBytes] at h

/-- A computed content hash is a wellformed digest token. -/
lemma computeContentHash_hexOK (i : Issue) : hexOKb (computeContentHash i) = true := by
  have h1 : (computeContentHash i).data ≠ [] := bytesToHex_ne_nil (sha256_ne_nil _)
  have h2 : ∀ c ∈ (computeContentHash i).data, isHexChar c = true := bytesToHex_hex _
  simp only [hexOKb, Bool.and_eq_true, Bool.not_eq_true', List.isEmpty_eq_false,
    List.all_eq_true]
  exact ⟨h1, h2⟩

/-- Hash extraction recovers the stored digest from a freshly formatted
body. -/
lemma extractContentHash_format (issue : Issue) (hid : tokenOKb issue.GFS_ID = true) :
    extractContentHash (formatIssueBody issue) = some (computeContentHash issue) := by
  obtain ⟨hneid, hallid⟩ := tokenOKb_spec hid
  obtain ⟨hneh, hallh⟩ := hexOKb_spec (computeContentHash_hexOK issue)
  unfold extractContentHash
  rw [formatIssueBody_data]
  obtain ⟨pre, hscan⟩ := scanHash_canonical issue.GFS_ID.data
    (computeContentHash issue).data ('\n' :: '\n' :: issue.Description.data)
    hallid hneh hallh
  rw [hscan]

/-- A successful `find?` splits its list at the hit, with the prefix
failing the test. -/
lemma find_decomp {α : Type} {p : α → Bool} :
    ∀ {l : List α} {a : α}, l.find? p = some a →
    ∃ l₁ l₂, l = l₁ ++ a :: l₂ ∧ p a = true ∧ ∀ x ∈ l₁, p x = false := by
  intro l
  induction l with
  | nil => intro a h; simp at h
  | cons c cs ih =>
    intro a h
    cases hp : p c with
    | true =>
      rw [List.find?_cons, hp] at h
      simp only [Option.some.injEq] at h
      subst h
      exact ⟨[], cs, rfl, hp, by simp⟩
    | false =>
      rw [List.find?_cons, hp] at h
      obtain ⟨l₁, l₂, heq, hpa, hall⟩ := ih h
      refine ⟨c :: l₁, l₂, by rw [heq]; rfl, hpa, ?_⟩
      intro x hx
      rcases List.mem_cons.mp hx with rfl | hx
      · exact hp
      · exact hall x hx

/-- `Forall₂` is preserved by appending related lists. -/
lemma forall2_append {α β : Type} {R : α → β → Prop} {l₁ l₂ : List α}
    {m₁ m₂ : List β} (h1 : List.Forall₂ R l₁ m₁) (h2 : List.Forall₂ R l₂ m₂) :
    List.Forall₂ R (l₁ ++ l₂) (m₁ ++ m₂) := by
  induction h1 with
  | nil => exact h2
  | cons hr _ ih => exact List.Forall₂.cons hr ih

/-- Splitting a `Forall₂` along a split of its right list. -/
lemma forall2_decomp {α β : Type} {R : α → β → Prop} :
    ∀ {m₁ : List β} {l : List α} {b : β} {m₂ : List β},
    List.Forall₂ R l (m₁ ++ b :: m₂) →
    ∃ l₁ x l₂, l = l₁ ++ x :: l₂ ∧ List.Forall₂ R l₁ m₁ ∧ R x b ∧
      List.Forall₂ R l₂ m₂ := by
  intro m₁
  induction m₁ with
  | nil =>
    intro l b m₂ h
    rw [List.nil_append, List.forall₂_cons_right_iff] at h
    obtain ⟨a, u, hr, hf, rfl⟩ := h
    exact ⟨[], a, u, rfl, List.Forall₂.nil, hr, hf⟩
  | cons c cs ih =>
    intro l b m₂ h
    rw [List.cons_append, List.forall₂_cons_right_iff] at h
    obtain ⟨a, u, hr, hf, rfl⟩ := h
    obtain ⟨l₁, x, l₂, rfl, h1, hx, h2⟩ := ih hf
    exact ⟨a :: l₁, x, l₂, rfl, List.Forall₂.cons hr h1, hx, h2⟩

/-- Every left element of a `Forall₂` has a related right element. -/
lemma forall2_mem_right {α β : Type} {R : α → β → Prop} {l : List α}
    {m : List β} (h : List.Forall₂ R l m) : ∀ x ∈ l, ∃ y ∈ m, R x y := by
  induction h with
  | nil => intro x hx; simp at hx
  | cons hr _ ih =>
    intro x hx
    rcases List.mem_cons.mp hx with rfl | hx
    · exact ⟨_, List.mem_cons_self _ _, hr⟩
    · obtain ⟨y, hy, hxy⟩ := ih x hx
      exact ⟨y, List.mem_cons_of_mem _ hy, hxy⟩

/-- A map that fixes every element of a list is the identity on it. -/
lemma map_id_of {α : Type} (f : α → α) :
    ∀ (l : List α), (∀ x ∈ l, f x = x) → l.map f = l := by
  intro l
  induction l with
  | nil => intro _; rfl
  | cons c cs ih =>
    intro h
    rw [List.map_cons, h c (List.mem_cons_self _ _),
        ih (fun x hx => h x (List.mem_cons_of_mem _ hx))]

/-- `find?` commutes with a map that preserves the test pointwise. -/
lemma find_map_pres {α : Type} (p : α → Bool) (f : α → α) :
    ∀ (l : List α), (∀ x ∈ l, p (f x) = p x) →
    (l.map f).find? p = (l.find? p).map f := by
  intro l
  induction l with
  | nil => intro _; rfl
  | cons c cs ih =>
    intro h
    rw [List.map_cons, List.find?_cons, List.find?_cons,
        h c (List.mem_cons_self _ _)]
    cases hp : p c with
    | true => rfl
    | false => exact ih (fun x hx => h x (List.mem_cons_of_mem _ hx))

/-- A number-preserving map leaves the number column unchanged. -/
lemma map_number_eq {f : GithubIssue → GithubIssue}
    (hf : ∀ e, (f e).number = e.number) (l : List GithubIssue) :
    (l.map f).map GithubIssue.number = l.map GithubIssue.number := by
  rw [List.map_map]
  exact List.map_congr_left (fun a _ => hf a)

/-- With distinct numbers, the number determines the element. -/
lemma eq_of_number_eq {l : List GithubIssue}
    (hnd : (l.map GithubIssue.number).Nodup) {x y : GithubIssue}
    (hx : x ∈ l) (hy : y ∈ l) (h : x.number = y.number) : x = y :=
  List.inj_on_of_nodup_map hnd hx hy h

/-- In a list with distinct keys, the key of a middle element differs
from every other element's key. -/
lemma nodup_middle_ne {α : Type} (f : α → Nat) {l₁ l₂ : List α} {y : α}
    (hnd : ((l₁ ++ y :: l₂).map f).Nodup) :
    ∀ x, (x ∈ l₁ ∨ x ∈ l₂) → f x ≠ f y := by
  rw [List.map_append, List.map_cons, List.nodup_append] at hnd
  obtain ⟨h1, h2, h3⟩ := hnd
  rw [List.nodup_cons] at h2
  intro x hx heq
  rcases hx with hx | hx
  · exact h3 (List.mem_map_of_mem f hx)
      (by rw [heq]; exact List.mem_cons_self _ _)
  · exact h2.1 (by rw [← heq]; exact List.mem_map_of_mem f hx)

/-- `SlotRel` is monotone in the processed list. -/
lemma SlotRel_mono {E : List GithubIssue} {done dn : List Issue}
    (hsub : ∀ d ∈ done, d ∈ dn) {f e : GithubIssue}
    (h : SlotRel E done f e) : SlotRel E dn f e := by
  obtain ⟨hn, hb | ⟨d, hd, hfind, hbody⟩⟩ := h
  · exact ⟨hn, Or.inl hb⟩
  · exact ⟨hn, Or.inr ⟨d, hsub d hd, hfind, hbody⟩⟩

/-- A slot carries the same extractable identity as its snapshot
entry. -/
lemma SlotRel_extract {E : List GithubIssue} {done : List Issue}
    {x e : GithubIssue}
    (htokdone : ∀ d ∈ done, tokenOKb d.GFS_ID = true)
    (hrel : SlotRel E done x e) :
    extractGfsId x.body = extractGfsId e.body := by
  rcases hrel.2 with hb | ⟨d, hd, hfde, hbd⟩
  · rw [hb]
  · rw [hbd, extractGfsId_format d (htokdone d hd)]
    have hp := List.find?_some hfde
    have : extractGfsId e.body = some d.GFS_ID := by simpa using hp
    exact this.symm

/-- Tracking survives appending new issues on the right. -/
lemma GoodIssue_append {d : Issue} {l : List GithubIssue}
    (l₂ : List GithubIssue) (h : GoodIssue d l) : GoodIssue d (l ++ l₂) := by
  obtain ⟨e, hfind, hh⟩ := h
  refine ⟨e, ?_, hh⟩
  unfold findIssueByGfsId at hfind ⊢
  rw [List.find?_append, hfind]
  rfl

/-- Tracking survives a map that preserves the identity test everywhere
and the body wherever the identity matches. -/
lemma GoodIssue_map {d : Issue} {f : GithubIssue → GithubIssue}
    {l : List GithubIssue}
    (hpred : ∀ x ∈ l, (extractGfsId (f x).body == some d.GFS_ID) =
      (extractGfsId x.body == some d.GFS_ID))
    (hbody : ∀ x ∈ l, (extractGfsId x.body == some d.GFS_ID) = true →
      (f x).body = x.body)
    (h : GoodIssue d l) : GoodIssue d (l.map f) := by
  obtain ⟨e, hfind, hh⟩ := h
  unfold findIssueByGfsId at hfind
  have hmem := List.mem_of_find?_eq_some hfind
  have hpe := List.find?_some hfind
  refine ⟨f e, ?_, ?_⟩
  · show findIssueByGfsId d.GFS_ID (l.map f) = some (f e)
    unfold findIssueByGfsId
    rw [find_map_pres _ _ l hpred, hfind]
    rfl
  · rw [hbody e hmem hpe]
    exact hh

/-- A non-dry update rewrites exactly the issues bearing the given
number, giving them the freshly formatted body; numbers, milestones and
the allocator are untouched. -/
lemma updateGithubIssue_shape (st : RemoteState) (n : Nat) (issue : Issue) :
    ∃ g : GithubIssue → GithubIssue,
      (updateGithubIssue st n issue false).issues = st.issues.map g ∧
      (∀ x, x.number ≠ n → g x = x) ∧
      (∀ x, (g x).number = x.number) ∧
      (∀ x, x.number = n → (g x).body = formatIssueBody issue) ∧
      (updateGithubIssue st n issue false).milestones = st.milestones ∧
      (updateGithubIssue st n issue false).nextNumber = st.nextNumber := by
  refine ⟨_, rfl, ?_, ?_, ?_, rfl, rfl⟩
  · intro x hx
    rw [if_neg (by simp [hx])]
  · intro x
    split <;> rfl
  · intro x hx
    rw [if_pos (by simp [hx])]

/-- A non-dry label addition rewrites at most the issues bearing the
given number, and only their label set. -/
lemma addLabelsToIssue_shape (st : RemoteState) (n : Nat) (labels : List String) :
    ∃ g : GithubIssue → GithubIssue,
      (addLabelsToIssue st n labels false).issues = st.issues.map g ∧
      (∀ x, x.number ≠ n → g x = x) ∧
      (∀ x, (g x).number = x.number) ∧
      (∀ x, (g x).body = x.body) ∧
      (addLabelsToIssue st n labels false).milestones = st.milestones ∧
      (addLabelsToIssue st n labels false).nextNumber = st.nextNumber := by
  unfold addLabelsToIssue
  by_cases he : labels.isEmpty
  · rw [if_pos (by simp [he])]
    exact ⟨id, (List.map_id _).symm, fun x _ => rfl, fun x => rfl, fun x => rfl,
      rfl, rfl⟩
  · rw [if_neg (by simp [he])]
    refine ⟨_, rfl, ?_, ?_, ?_, rfl, rfl⟩
    · intro x hx
      rw [if_neg (by simp [hx])]
    · intro x
      split <;> rfl
    · intro x
      split <;> rfl

/-- A non-dry creation returns the allocator value and appends exactly
one issue, numbered by the allocator and carrying the freshly formatted
body; milestones are untouched and the allocator advances by one. -/
lemma createGithubIssue_shape (st : RemoteState) (issue : Issue) :
    (createGithubIssue st issue false).1 = st.nextNumber ∧
    ∃ enew : GithubIssue,
      (createGithubIssue st issue false).2.issues = st.issues ++ [enew] ∧
      enew.number = st.nextNumber ∧
      enew.body = formatIssueBody issue ∧
      (createGithubIssue st issue false).2.milestones = st.milestones ∧
      (createGithubIssue st issue false).2.nextNumber = st.nextNumber + 1 :=
  ⟨rfl, ⟨_, rfl, rfl, rfl, rfl, rfl⟩⟩

/-- Milestone resolution moves neither the issue list nor the
allocator, and only ever extends the milestone list. -/
lemma prepareMilestoneArg_state (st : RemoteState) (title : String) (ac : Bool) :
    (prepareMilestoneArg st title ac false).2.issues = st.issues ∧
    (prepareMilestoneArg st title ac false).2.nextNumber = st.nextNumber ∧
    ∀ m ∈ st.milestones, m ∈ (prepareMilestoneArg st title ac false).2.milestones := by
  unfold prepareMilestoneArg listMilestones createMilestone
  split_ifs <;> simp_all [List.mem_append] <;> split_ifs <;>
    simp_all [List.mem_append]

/-- Under a resolvable milestone, the resolution step hands the
issue's own milestone back (or the issue had none), so the milestone
rewrite performed before formatting is the identity. -/
lemma prepareMilestoneArg_resolves (st : RemoteState) (i : Issue) (ac : Bool)
    (ms0 : List String) (hA : ∀ m ∈ ms0, m ∈ st.milestones)
    (hres : (i.Milestone == "" ||
      (!strBlank i.Milestone && (ac || ms0.contains i.Milestone))) = true) :
    { i with Milestone := (prepareMilestoneArg st i.Milestone ac false).1.getD "" } =
      i := by
  by_cases hb : strBlank i.Milestone
  · have hms : i.Milestone = "" := by simpa [hb] using hres
    unfold prepareMilestoneArg
    rw [if_pos hb]
    rw [show ((none : Option String).getD "") = "" from rfl, ← hms]
  · have hb2 : strBlank i.Milestone = false := by simpa using hb
    have hne : i.Milestone ≠ "" := fun he => hb (by rw [he]; rfl)
    unfold prepareMilestoneArg listMilestones createMilestone
    rw [if_neg hb]
    dsimp only
    by_cases hc : st.milestones.contains i.Milestone
    · rw [if_pos hc]
      rfl
    · rw [if_neg hc]
      by_cases hac : ac = true
      · rw [hac, if_pos (show (true && !false) = true from rfl)]
        rfl
      · have hac2 : ac = false := by simpa using hac
        exfalso
        rw [hb2, hac2] at hres
        have hres2 : i.Milestone = "" ∨ i.Milestone ∈ ms0 := by simpa using hres
        rcases hres2 with h1 | h1
        · exact hne h1
        · exact hc (by simpa using hA _ h1)

/-- Locating the slot of a snapshot hit in the current issue list: the
leading slots fail the identity test, the slot carries the snapshot's
number and (still) its body, and the current lookup returns it. -/
lemma front_lookup {E : List GithubIssue} {done : List Issue}
    {front : List GithubIssue} {issue : Issue} {ex : GithubIssue}
    (back : List GithubIssue)
    (hf2 : List.Forall₂ (SlotRel E done) front E)
    (htokdone : ∀ d ∈ done, tokenOKb d.GFS_ID = true)
    (hnew : ∀ d ∈ done, d.GFS_ID ≠ issue.GFS_ID)
    (hfind : findIssueByGfsId issue.GFS_ID E = some ex) :
    ∃ F1 fx F2 E1 E2, front = F1 ++ fx :: F2 ∧ E = E1 ++ ex :: E2 ∧
      List.Forall₂ (SlotRel E done) F1 E1 ∧
      List.Forall₂ (SlotRel E done) F2 E2 ∧
      fx.number = ex.number ∧ fx.body = ex.body ∧
      (∀ x ∈ F1, (extractGfsId x.body == some issue.GFS_ID) = false) ∧
      findIssueByGfsId issue.GFS_ID (front ++ back) = some fx := by
  unfold findIssueByGfsId at hfind
  obtain ⟨E1, E2, hE, hpex, hpre⟩ := find_decomp hfind
  have hf2s := hf2
  rw [hE] at hf2s
  obtain ⟨F1, fx, F2, hfr, h1, hrel, h2⟩ := forall2_decomp hf2s
  rw [← hE] at h1 h2
  have hnum := hrel.1
  have hexpred : extractGfsId ex.body = some issue.GFS_ID := by simpa using hpex
  have hbody : fx.body = ex.body := by
    rcases hrel.2 with hb | ⟨d, hd, hfde, hbd⟩
    · exact hb
    · exfalso
      unfold findIssueByGfsId at hfde
      have hpd := List.find?_some hfde
      have hdd : extractGfsId ex.body = some d.GFS_ID := by simpa using hpd
      rw [hexpred] at hdd
      exact hnew d hd (Option.some.inj hdd).symm
  have hF1 : ∀ x ∈ F1, (extractGfsId x.body == some issue.GFS_ID) = false := by
    intro x hx
    obtain ⟨e1, he1, hrel1⟩ := forall2_mem_right h1 x hx
    have hxe := SlotRel_extract htokdone hrel1
    show (extractGfsId x.body == some issue.GFS_ID) = false
    rw [hxe]
    exact hpre e1 he1
  have hfx : (extractGfsId fx.body == some issue.GFS_ID) = true := by
    rw [hbody, hexpred]
    simp
  refine ⟨F1, fx, F2, E1, E2, hfr, hE, h1, h2, hnum, hbody, hF1, ?_⟩
  unfold findIssueByGfsId
  rw [hfr, List.append_assoc, List.find?_append]
  have hnone : List.find? (fun e => extractGfsId e.body == some issue.GFS_ID) F1 =
      none :=
    List.find?_eq_none.mpr (fun x hx => by simp [hF1 x hx])
  rw [hnone]
  rw [show (fx :: F2) ++ back = fx :: (F2 ++ back) from rfl]
  simp [List.find?_cons, hfx, Option.or]

/-- The invariant absorbs a skipped issue (matched with an equal stored
hash): the state is untouched and the issue is already tracked. -/
lemma ImportInv_skip {E : List GithubIssue} {ms0 : List String} {done : List Issue}
    {st : RemoteState} {issue : Issue} {ex : GithubIssue}
    (hinv : ImportInv E ms0 done st)
    (htokdone : ∀ d ∈ done, tokenOKb d.GFS_ID = true)
    (hnew : ∀ d ∈ done, d.GFS_ID ≠ issue.GFS_ID)
    (hfindE : findIssueByGfsId issue.GFS_ID E = some ex)
    (hsame : extractContentHash ex.body = some (computeContentHash issue)) :
    ImportInv E ms0 (done ++ [issue]) st := by
  obtain ⟨hA, hnd, hbound, hgood, front, back, hsplit, hf2, hback⟩ := hinv
  obtain ⟨F1, fx, F2, E1, E2, hfr, hE, h1, h2, hnum, hbody, hF1, hfcur⟩ :=
    front_lookup back hf2 htokdone hnew hfindE
  have hsub : ∀ d ∈ done, d ∈ done ++ [issue] := fun d hd => List.mem_append_left _ hd
  refine ⟨hA, hnd, hbound, ?_, front, back, hsplit, ?_, ?_⟩
  · intro d hd
    rcases List.mem_append.mp hd with hd | hd
    · exact hgood d hd
    · have hd2 : d = issue := by simpa using hd
      subst hd2
      refine ⟨fx, ?_, ?_⟩
      · rw [hsplit]
        exact hfcur
      · rw [hbody]
        exact hsame
  · exact List.Forall₂.imp (fun a b h => SlotRel_mono hsub h) hf2
  · intro e he
    obtain ⟨d, hd, hfn, hb⟩ := hback e he
    exact ⟨d, hsub d hd, hfn, hb⟩

/-- The invariant absorbs an update: the slot matched by the snapshot
lookup receives the freshly formatted body, everything else stands. -/
lemma ImportInv_update {E : List GithubIssue} {ms0 : List String} {done : List Issue}
    {st stF : RemoteState} {issue : Issue} {ex : GithubIssue}
    (hinv : ImportInv E ms0 done st)
    (htokdone : ∀ d ∈ done, tokenOKb d.GFS_ID = true)
    (htok : tokenOKb issue.GFS_ID = true)
    (hnew : ∀ d ∈ done, d.GFS_ID ≠ issue.GFS_ID)
    (hfindE : findIssueByGfsId issue.GFS_ID E = some ex)
    (g : GithubIssue → GithubIssue)
    (hgid : ∀ x, x.number ≠ ex.number → g x = x)
    (hgnum : ∀ x, (g x).number = x.number)
    (hgbody : ∀ x, x.number = ex.number → (g x).body = formatIssueBody issue)
    (hiss : stF.issues = st.issues.map g)
    (hms : ∀ m ∈ st.milestones, m ∈ stF.milestones)
    (hnn : stF.nextNumber = st.nextNumber) :
    ImportInv E ms0 (done ++ [issue]) stF := by
  obtain ⟨hA, hnd, hbound, hgood, front, back, hsplit, hf2, hback⟩ := hinv
  obtain ⟨F1, fx, F2, E1, E2, hfr, hE, h1, h2, hnum, hbody, hF1, hfcur⟩ :=
    front_lookup back hf2 htokdone hnew hfindE
  have hsub : ∀ d ∈ done, d ∈ done ++ [issue] := fun d hd => List.mem_append_left _ hd
  have hsplit2 : st.issues = F1 ++ fx :: (F2 ++ back) := by
    rw [hsplit, hfr, List.append_assoc, List.cons_append]
  have hnodup2 := hnd
  rw [hsplit2] at hnodup2
  have hothers := nodup_middle_ne GithubIssue.number hnodup2
  have hfixF1 : ∀ x ∈ F1, g x = x := fun x hx =>
    hgid x (fun heq => hothers x (Or.inl hx) (heq.trans hnum.symm))
  have hfixR : ∀ x ∈ F2 ++ back, g x = x := fun x hx =>
    hgid x (fun heq => hothers x (Or.inr hx) (heq.trans hnum.symm))
  have hmapeq : stF.issues = F1 ++ g fx :: (F2 ++ back) := by
    rw [hiss, hsplit2, List.map_append, List.map_cons,
        map_id_of g F1 hfixF1, map_id_of g (F2 ++ back) hfixR]
  have hgfxbody : (g fx).body = formatIssueBody issue := hgbody fx hnum
  have hgfxnum : (g fx).number = ex.number := by
    rw [hgnum fx]
    exact hnum
  have hfxmem : fx ∈ st.issues := by
    rw [hsplit2]
    exact List.mem_append_right _ (List.mem_cons_self _ _)
  have hslot : ∀ x ∈ st.issues, x.number = ex.number → x = fx := by
    intro x hx heq
    exact eq_of_number_eq hnd hx hfxmem (heq.trans hnum.symm)
  have hfxext : extractGfsId fx.body = some issue.GFS_ID := by
    rw [hbody]
    have hfe := hfindE
    unfold findIssueByGfsId at hfe
    simpa using List.find?_some hfe
  refine ⟨fun m hm => hms m (hA m hm), ?_, ?_, ?_, F1 ++ g fx :: F2, back, ?_, ?_, ?_⟩
  · rw [hiss, map_number_eq hgnum]
    exact hnd
  · intro e he
    rw [hiss, List.mem_map] at he
    obtain ⟨x, hx, rfl⟩ := he
    rw [hnn, hgnum]
    exact hbound x hx
  · intro d hd
    rcases List.mem_append.mp hd with hd | hd
    · have hdne : d.GFS_ID ≠ issue.GFS_ID := hnew d hd
      have hpred : ∀ x ∈ st.issues, (extractGfsId (g x).body == some d.GFS_ID) =
          (extractGfsId x.body == some d.GFS_ID) := by
        intro x hx
        by_cases hxn : x.number = ex.number
        · have hxfx : x = fx := hslot x hx hxn
          subst hxfx
          rw [hgbody x hxn, extractGfsId_format issue htok, hfxext]
        · rw [hgid x hxn]
      have hbodyp : ∀ x ∈ st.issues, (extractGfsId x.body == some d.GFS_ID) = true →
          (g x).body = x.body := by
        intro x hx hp
        by_cases hxn : x.number = ex.number
        · exfalso
          have hxfx : x = fx := hslot x hx hxn
          subst hxfx
          rw [hfxext] at hp
          have hpe : issue.GFS_ID = d.GFS_ID := by simpa using hp
          exact hdne hpe.symm
        · rw [hgid x hxn]
      rw [hiss]
      exact GoodIssue_map hpred hbodyp (hgood d hd)
    · have hd2 : d = issue := by simpa using hd
      rw [hd2]
      refine ⟨g fx, ?_, ?_⟩
      · show findIssueByGfsId issue.GFS_ID stF.issues = some (g fx)
        rw [hmapeq]
        unfold findIssueByGfsId
        rw [List.find?_append]
        have hnone : List.find?
            (fun e => extractGfsId e.body == some issue.GFS_ID) F1 = none :=
          List.find?_eq_none.mpr (fun x hx => by simp [hF1 x hx])
        rw [hnone]
        have hp : (extractGfsId (g fx).body == some issue.GFS_ID) = true := by
          rw [hgfxbody, extractGfsId_format issue htok]
          simp
        simp [List.find?_cons, hp, Option.or]
      · rw [hgfxbody]
        exact extractContentHash_format issue htok
  · rw [hmapeq, List.append_assoc]
    rfl
  · have hfa : List.Forall₂ (SlotRel E (done ++ [issue])) (F1 ++ g fx :: F2)
        (E1 ++ ex :: E2) :=
      forall2_append (List.Forall₂.imp (fun a b h => SlotRel_mono hsub h) h1)
        (List.Forall₂.cons
          ⟨hgfxnum, Or.inr ⟨issue,
            List.mem_append_right _ (List.mem_cons_self _ _), hfindE, hgfxbody⟩⟩
          (List.Forall₂.imp (fun a b h => SlotRel_mono hsub h) h2))
    rw [← hE] at hfa
    exact hfa
  · intro e he
    obtain ⟨d, hd, hfn, hb⟩ := hback e he
    exact ⟨d, hsub d hd, hfn, hb⟩

/-- The invariant absorbs a creation: a fresh issue with the formatted
body and the allocator's number is appended and the allocator
advances. -/
lemma ImportInv_create {E : List GithubIssue} {ms0 : List String} {done : List Issue}
    {st stF : RemoteState} {issue : Issue}
    (hinv : ImportInv E ms0 done st)
    (htokdone : ∀ d ∈ done, tokenOKb d.GFS_ID = true)
    (htok : tokenOKb issue.GFS_ID = true)
    (hnew : ∀ d ∈ done, d.GFS_ID ≠ issue.GFS_ID)
    (hfindE : findIssueByGfsId issue.GFS_ID E = none)
    (enew : GithubIssue)
    (hennum : enew.number = st.nextNumber)
    (henbody : enew.body = formatIssueBody issue)
    (hiss : stF.issues = st.issues ++ [enew])
    (hms : ∀ m ∈ st.milestones, m ∈ stF.milestones)
    (hnn : stF.nextNumber = st.nextNumber + 1) :
    ImportInv E ms0 (done ++ [issue]) stF := by
  obtain ⟨hA, hnd, hbound, hgood, front, back, hsplit, hf2, hback⟩ := hinv
  have hsub : ∀ d ∈ done, d ∈ done ++ [issue] := fun d hd => List.mem_append_left _ hd
  have hfe : E.find? (fun e => extractGfsId e.body == some issue.GFS_ID) = none :=
    hfindE
  have hEpred : ∀ x ∈ E, (extractGfsId x.body == some issue.GFS_ID) = false := by
    intro x hx
    have h := List.find?_eq_none.mp hfe x hx
    simpa using h
  have hallpred : ∀ x ∈ st.issues,
      (extractGfsId x.body == some issue.GFS_ID) = false := by
    intro x hx
    rw [hsplit] at hx
    rcases List.mem_append.mp hx with hx | hx
    · obtain ⟨e1, he1, hrel1⟩ := forall2_mem_right hf2 x hx
      show (extractGfsId x.body == some issue.GFS_ID) = false
      rw [SlotRel_extract htokdone hrel1]
      exact hEpred e1 he1
    · obtain ⟨d, hd, hfn, hb⟩ := hback x hx
      show (extractGfsId x.body == some issue.GFS_ID) = false
      rw [hb, extractGfsId_format d (htokdone d hd)]
      simp [hnew d hd]
  have hennew : (extractGfsId enew.body == some issue.GFS_ID) = true := by
    rw [henbody, extractGfsId_format issue htok]
    simp
  have hnotal : st.issues.find?
      (fun e => extractGfsId e.body == some issue.GFS_ID) = none :=
    List.find?_eq_none.mpr (fun x hx => by simp [hallpred x hx])
  refine ⟨fun m hm => hms m (hA m hm), ?_, ?_, ?_, front, back ++ [enew], ?_, ?_, ?_⟩
  · rw [hiss, List.map_append, List.nodup_append]
    refine ⟨hnd, by simp, ?_⟩
    intro a ha hb
    rw [List.mem_map] at ha
    obtain ⟨x, hx, rfl⟩ := ha
    have hxn : x.number = enew.number := by simpa using hb
    rw [hennum] at hxn
    exact absurd hxn (Nat.ne_of_lt (hbound x hx))
  · intro e he
    rw [hiss] at he
    rcases List.mem_append.mp he with he | he
    · rw [hnn]
      exact Nat.lt_succ_of_lt (hbound e he)
    · have he2 : e = enew := by simpa using he
      subst he2
      rw [hnn, hennum]
      exact Nat.lt_succ_self _
  · intro d hd
    rcases List.mem_append.mp hd with hd | hd
    · rw [hiss]
      exact GoodIssue_append _ (hgood d hd)
    · have hd2 : d = issue := by simpa using hd
      rw [hd2]
      refine ⟨enew, ?_, ?_⟩
      · show findIssueByGfsId issue.GFS_ID stF.issues = some enew
        rw [hiss]
        unfold findIssueByGfsId
        rw [List.find?_append, hnotal]
        simp [List.find?_cons, hennew, Option.or]
      · rw [henbody]
        exact extractContentHash_format issue htok
  · rw [hiss, hsplit, List.append_assoc]
  · exact List.Forall₂.imp (fun a b h => SlotRel_mono hsub h) hf2
  · intro e he
    rcases List.mem_append.mp he with he | he
    · obtain ⟨d, hd, hfn, hb⟩ := hback e he
      exact ⟨d, hsub d hd, hfn, hb⟩
    · have he2 : e = enew := by simpa using he
      subst he2
      exact ⟨issue, List.mem_append_right _ (List.mem_cons_self _ _), hfindE, henbody⟩

/-- One non-dry, unsuppressed import-loop iteration preserves the
invariant, absorbing the processed issue. -/
lemma importStep_inv {opts : ImportOptions} {E : List GithubIssue} {ms0 : List String}
    (hdry : opts.dryRun = false) (hco : opts.createOnly = false)
    (huo : opts.updateOnly = false)
    {done : List Issue} {st : RemoteState} (sum : ImportSummary) {issue : Issue}
    (hinv : ImportInv E ms0 done st)
    (htokdone : ∀ d ∈ done, tokenOKb d.GFS_ID = true)
    (htok : tokenOKb issue.GFS_ID = true)
    (hnew : ∀ d ∈ done, d.GFS_ID ≠ issue.GFS_ID)
    (hms : msResolvable opts ms0 issue = true) :
    ImportInv E ms0 (done ++ [issue]) ((importStep opts E (st, sum) issue).1) := by
  have hres0 : (issue.Milestone == "" || (!strBlank issue.Milestone &&
      (opts.autoCreateMilestones || ms0.contains issue.Milestone))) = true := hms
  have hi1 :
      { issue with
          Milestone := Option.getD
            (prepareMilestoneArg st issue.Milestone opts.autoCreateMilestones
              false).1
            "" } =
        issue :=
    prepareMilestoneArg_resolves st issue opts.autoCreateMilestones ms0 hinv.1 hres0
  obtain ⟨hpiss, hpnn, hpms⟩ :=
    prepareMilestoneArg_state st issue.Milestone opts.autoCreateMilestones
  have hbound := hinv.2.2.1
  unfold importStep
  cases hfindE : findIssueByGfsId issue.GFS_ID E with
  | some ex =>
    dsimp only
    rw [if_neg (by simp [hco])]
    by_cases hsame :
        (extractContentHash ex.body == some (computeContentHash issue)) = true
    · rw [if_pos hsame]
      exact ImportInv_skip hinv htokdone hnew hfindE (by simpa using hsame)
    · rw [if_neg hsame, if_neg (by simp [hdry]), hdry]
      dsimp only
      rw [hi1]
      obtain ⟨g1, hg1i, hg1id, hg1num, hg1body, hg1ms, hg1nn⟩ :=
        updateGithubIssue_shape
          (prepareMilestoneArg st issue.Milestone opts.autoCreateMilestones false).2
          ex.number issue
      by_cases hal : opts.autoCreateLabels = true
      · rw [hal, if_pos rfl]
        obtain ⟨g2, hg2i, hg2id, hg2num, hg2body, hg2ms, hg2nn⟩ :=
          addLabelsToIssue_shape
            (updateGithubIssue
              (prepareMilestoneArg st issue.Milestone opts.autoCreateMilestones
                false).2 ex.number issue false)
            ex.number (autoLabels issue)
        refine ImportInv_update hinv htokdone htok hnew hfindE
          (fun x => g2 (g1 x)) ?_ ?_ ?_ ?_ ?_ ?_
        · intro x hx
          show g2 (g1 x) = x
          rw [hg1id x hx, hg2id x hx]
        · intro x
          show (g2 (g1 x)).number = x.number
          rw [hg2num, hg1num]
        · intro x hx
          show (g2 (g1 x)).body = formatIssueBody issue
          rw [hg2body, hg1body x hx]
        · rw [hg2i, hg1i, hpiss, List.map_map]
          rfl
        · intro m hm
          rw [hg2ms, hg1ms]
          exact hpms m hm
        · rw [hg2nn, hg1nn, hpnn]
      · have hal2 : opts.autoCreateLabels = false := by simpa using hal
        rw [hal2, if_neg (by simp)]
        refine ImportInv_update hinv htokdone htok hnew hfindE g1 hg1id hg1num
          hg1body ?_ ?_ ?_
        · rw [hg1i, hpiss]
        · intro m hm
          rw [hg1ms]
          exact hpms m hm
        · rw [hg1nn, hpnn]
  | none =>
    dsimp only
    rw [if_neg (by simp [huo]), if_neg (by simp [hdry]), hdry]
    dsimp only
    rw [hi1]
    obtain ⟨hcn, enew, hci, hcnum, hcbody, hcms, hcnn⟩ :=
      createGithubIssue_shape
        (prepareMilestoneArg st issue.Milestone opts.autoCreateMilestones false).2
        issue
    by_cases hal : opts.autoCreateLabels = true
    · rw [hal, if_pos rfl]
      obtain ⟨g2, hg2i, hg2id, hg2num, hg2body, hg2ms, hg2nn⟩ :=
        addLabelsToIssue_shape
          (createGithubIssue
            (prepareMilestoneArg st issue.Milestone opts.autoCreateMilestones
              false).2 issue false).2
          (createGithubIssue
            (prepareMilestoneArg st issue.Milestone opts.autoCreateMilestones
              false).2 issue false).1
          (autoLabels issue)
      have hfix : ∀ x ∈ st.issues, g2 x = x := by
        intro x hx
        refine hg2id x ?_
        rw [hcn, hpnn]
        exact Nat.ne_of_lt (hbound x hx)
      refine ImportInv_create hinv htokdone htok hnew hfindE (g2 enew) ?_ ?_ ?_ ?_ ?_
      · rw [hg2num, hcnum, hpnn]
      · rw [hg2body, hcbody]
      · rw [hg2i, hci, hpiss, List.map_append, map_id_of g2 st.issues hfix]
        rfl
      · intro m hm
        rw [hg2ms, hcms]
        exact hpms m hm
      · rw [hg2nn, hcnn, hpnn]
    · have hal2 : opts.autoCreateLabels = false := by simpa using hal
      rw [hal2, if_neg (by simp)]
      refine ImportInv_create hinv htokdone htok hnew hfindE enew ?_ hcbody ?_ ?_ ?_
      · rw [hcnum, hpnn]
      · rw [hci, hpiss]
      · intro m hm
        rw [hcms]
        exact hpms m hm
      · rw [hcnn, hpnn]

/-- Folding the import loop absorbs the processed issues into the
invariant. -/
lemma importFold_inv {opts : ImportOptions} {E : List GithubIssue} {ms0 : List String}
    (hdry : opts.dryRun = false) (hco : opts.createOnly = false)
    (huo : opts.updateOnly = false) :
    ∀ (todo done : List Issue) (st : RemoteState) (sum : ImportSummary),
    ImportInv E ms0 done st →
    (∀ d ∈ done, tokenOKb d.GFS_ID = true) →
    (∀ i ∈ todo, tokenOKb i.GFS_ID = true) →
    (∀ d ∈ done, ∀ i ∈ todo, d.GFS_ID ≠ i.GFS_ID) →
    (todo.map Issue.GFS_ID).Nodup →
    (∀ i ∈ todo, msResolvable opts ms0 i = true) →
    ImportInv E ms0 (done ++ todo) (todo.foldl (importStep opts E) (st, sum)).1 := by
  intro todo
  induction todo with
  | nil =>
    intro done st sum hinv _ _ _ _ _
    simpa using hinv
  | cons i rest ih =>
    intro done st sum hinv htokdone htoktodo hnewall hnd hmsall
    rw [List.foldl_cons]
    have hstep := importStep_inv hdry hco huo sum hinv htokdone
      (htoktodo i (List.mem_cons_self _ _))
      (fun d hd => hnewall d hd i (List.mem_cons_self _ _))
      (hmsall i (List.mem_cons_self _ _))
    have hni : i.GFS_ID ∉ rest.map Issue.GFS_ID := by
      rw [List.map_cons, List.nodup_cons] at hnd
      exact hnd.1
    have htokdone2 : ∀ d ∈ done ++ [i], tokenOKb d.GFS_ID = true := by
      intro d hd
      rcases List.mem_append.mp hd with hd | hd
      · exact htokdone d hd
      · have hd2 : d = i := by simpa using hd
        rw [hd2]
        exact htoktodo i (List.mem_cons_self _ _)
    have hnew2 : ∀ d ∈ done ++ [i], ∀ j ∈ rest, d.GFS_ID ≠ j.GFS_ID := by
      intro d hd j hj
      rcases List.mem_append.mp hd with hd | hd
      · exact hnewall d hd j (List.mem_cons_of_mem _ hj)
      · have hd2 : d = i := by simpa using hd
        rw [hd2]
        intro heq
        exact hni (heq ▸ List.mem_map_of_mem _ hj)
    have hres := ih (done ++ [i]) (importStep opts E (st, sum) i).1
      (importStep opts E (st, sum) i).2 hstep htokdone2
      (fun j hj => htoktodo j (List.mem_cons_of_mem _ hj)) hnew2
      (by rw [List.map_cons, List.nodup_cons] at hnd; exact hnd.2)
      (fun j hj => hmsall j (List.mem_cons_of_mem _ hj))
    rw [List.append_assoc, List.singleton_append] at hres
    exact hres

/-- A tracked, hash-clean issue is skipped without touching the
state. -/
lemma importStep_skip {opts : ImportOptions} {existing : List GithubIssue}
    (hco : opts.createOnly = false) (st : RemoteState) (sum : ImportSummary)
    {issue : Issue} {ex : GithubIssue}
    (hfind : findIssueByGfsId issue.GFS_ID existing = some ex)
    (hhash : extractContentHash ex.body = some (computeContentHash issue)) :
    importStep opts existing (st, sum) issue =
      (st, { sum with skipped := sum.skipped + 1 }) := by
  unfold importStep
  rw [hfind]
  dsimp only
  rw [if_neg (by simp [hco]), if_pos (by simp [hhash])]

/-- A run in which every desired issue is tracked and hash-clean skips
them all and leaves the state alone. -/
lemma importFold_skip {opts : ImportOptions} {existing : List GithubIssue}
    (hco : opts.createOnly = false) :
    ∀ (issues : List Issue) (st : RemoteState) (sum : ImportSummary),
    (∀ i ∈ issues, GoodIssue i existing) →
    issues.foldl (importStep opts existing) (st, sum) =
      (st, ⟨sum.created, sum.updated, sum.skipped + issues.length⟩) := by
  intro issues
  induction issues with
  | nil =>
    intro st sum _
    rfl
  | cons i rest ih =>
    intro st sum h
    obtain ⟨ex, hfind, hh⟩ := h i (List.mem_cons_self _ _)
    rw [List.foldl_cons, importStep_skip hco st sum hfind hh,
        ih st _ (fun j hj => h j (List.mem_cons_of_mem _ hj))]
    simp +arith [List.length_cons]

/-- A non-dry, unsuppressed run with wellformed inputs leaves every
desired issue tracked and hash-clean on the remote. -/
lemma importIssues_good (issues : List Issue) (opts : ImportOptions)
    (st0 : RemoteState)
    (hdry : opts.dryRun = false) (hco : opts.createOnly = false)
    (huo : opts.updateOnly = false)
    (htok : ∀ i ∈ issues, tokenOKb i.GFS_ID = true)
    (hnd : (issues.map Issue.GFS_ID).Nodup)
    (hms : ∀ i ∈ issues, msResolvable opts st0.milestones i = true)
    (hwf : wellFormedRemote st0) :
    ∀ i ∈ issues, GoodIssue i (importIssues issues opts st0).2.issues := by
  have hbase : ImportInv st0.issues st0.milestones []
      { st0 with calls := st0.calls ++ [GhCall.listIssues] } := by
    refine ⟨fun m hm => hm, hwf.1, hwf.2,
      fun d hd => absurd hd (List.not_mem_nil d),
      st0.issues, [], (List.append_nil _).symm, ?_,
      fun e he => absurd he (List.not_mem_nil e)⟩
    exact List.forall₂_same.mpr (fun x _ => ⟨rfl, Or.inl rfl⟩)
  have h := importFold_inv hdry hco huo issues []
    { st0 with calls := st0.calls ++ [GhCall.listIssues] } ⟨0, 0, 0⟩ hbase
    (fun d hd => absurd hd (List.not_mem_nil d)) htok
    (fun d hd _ _ => absurd hd (List.not_mem_nil d)) hnd hms
  rw [List.nil_append] at h
  intro i hi
  exact h.2.2.2.1 i hi

/-- A run against a remote that already tracks every desired issue
hash-clean only logs its snapshot fetch: it creates nothing, updates
nothing, skips everything. -/
lemma importIssues_all_skip (issues : List Issue) (opts : ImportOptions)
    (st1 : RemoteState) (hco : opts.createOnly = false)
    (hgood : ∀ i ∈ issues, GoodIssue i st1.issues) :
    importIssues issues opts st1 =
      (⟨0, 0, issues.length⟩,
       { st1 with calls := st1.calls ++ [GhCall.listIssues] }) := by
  unfold importIssues
  dsimp only
  rw [importFold_skip hco issues _ ⟨0, 0, 0⟩ hgood]
  simp

/-- C1 (amended): re-import idempotence — for non-dry, unsuppressed
options, desired issues with wellformed distinct identity tokens and
milestones resolvable against the starting run (absent, or non-blank
and either auto-creatable or already on the remote), and a wellformed
remote, running `importIssues` twice in succession with no external
changes yields `created = 0`, `updated = 0` and `skipped = n` on the
second run, and the second run leaves the remote issues, milestones and
number allocator exactly as the first run left them; after the first
run every desired issue is tracked with a stored content-hash marker
equal to its recomputed hash.  (As frozen the claim is false: an issue
whose milestone cannot be resolved is hashed with its milestone
stripped, so the second run updates it again.) -/
theorem import_reimport_idempotent (issues : List Issue) (opts : ImportOptions)
    (st0 : RemoteState)
    (hdry : opts.dryRun = false) (hco : opts.createOnly = false)
    (huo : opts.updateOnly = false)
    (htok : ∀ i ∈ issues, tokenOKb i.GFS_ID = true)
    (hnd : (issues.map Issue.GFS_ID).Nodup)
    (hms : ∀ i ∈ issues, msResolvable opts st0.milestones i = true)
    (hwf : wellFormedRemote st0) :
    (importIssues issues opts (importIssues issues opts st0).2).1 =
      ⟨0, 0, issues.length⟩ ∧
    (importIssues issues opts (importIssues issues opts st0).2).2.issues =
      (importIssues issues opts st0).2.issues ∧
    (importIssues issues opts (importIssues issues opts st0).2).2.milestones =
      (importIssues issues opts st0).2.milestones ∧
    (importIssues issues opts (importIssues issues opts st0).2).2.nextNumber =
      (importIssues issues opts st0).2.nextNumber ∧
    ∀ i ∈ issues, GoodIssue i (importIssues issues opts st0).2.issues := by
  have hgood := importIssues_good issues opts st0 hdry hco huo htok hnd hms hwf
  have hrun2 := importIssues_all_skip issues opts
    (importIssues issues opts st0).2 hco hgood
  rw [hrun2]
  exact ⟨rfl, rfl, rfl, rfl, hgood⟩

/-- Witness for C1 at a concrete issue whose milestone exists
remotely. -/
theorem import_reimport_idempotent_witness :
    (importIssues [demoIssueV1] demoOpts
        (importIssues [demoIssueV1] demoOpts demoRemoteV1).2).1 = ⟨0, 0, 1⟩ ∧
    (importIssues [demoIssueV1] demoOpts
        (importIssues [demoIssueV1] demoOpts demoRemoteV1).2).2.issues =
      (importIssues [demoIssueV1] demoOpts demoRemoteV1).2.issues ∧
    (importIssues [demoIssueV1] demoOpts
        (importIssues [demoIssueV1] demoOpts demoRemoteV1).2).2.milestones =
      (importIssues [demoIssueV1] demoOpts demoRemoteV1).2.milestones ∧
    (importIssues [demoIssueV1] demoOpts
        (importIssues [demoIssueV1] demoOpts demoRemoteV1).2).2.nextNumber =
      (importIssues [demoIssueV1] demoOpts demoRemoteV1).2.nextNumber ∧
    ∀ i ∈ [demoIssueV1], GoodIssue i
      (importIssues [demoIssueV1] demoOpts demoRemoteV1).2.issues :=
  import_reimport_idempotent [demoIssueV1] demoOpts demoRemoteV1 rfl rfl rfl
    (by decide) (by decide) (by decide) ⟨by decide, by decide⟩

/-- Counterexample to C1 as frozen: importing a single issue whose
milestone does not exist remotely (auto-creation off) and re-importing
it unchanged yields `updated = 1` on the second run — the stored hash
was computed from the milestone-stripped copy and never matches. -/
theorem import_reimport_counterexample :
    ¬ ((importIssues [demoIssueMs] demoOpts
        (importIssues [demoIssueMs] demoOpts demoEmptyRemote).2).1.updated = 0) := by
  decide

end GIM
